import Mathlib

/-
Verification of the temporal data-integration engine of the
hawaii-airquality-forecasting repository.

The development shallowly embeds the pandas-based source code:

  * a CSV / API scalar value is a `Cell` (numeric, string, boolean, or the
    missing value NaN / NaT, written `Cell.na`);
  * a timestamp is an `Option Int` counting seconds since the epoch in UTC,
    with `none` standing for pandas NaT;
  * a data frame is a Lean list of typed row structures, in file order;
  * `drop_duplicates(subset=ks)` (keep="first", the pandas default) is
    `dedupBy`, which keeps the first row of every key group; pandas treats
    missing key values as equal when deduplicating, which the `Option`
    equality reproduces;
  * `sort_values("datetime_utc")` is a sort by the timestamp with `none`
    (NaT) ordered last, matching the pandas default na_position="last";
  * string-to-datetime parsing (`pd.to_datetime(..., errors="coerce")`) is an
    explicit parameter `parse : String → Option Int` of each cleaner, `none`
    standing for an unparsable value coerced to NaT; numeric parsing of
    strings (`pd.to_numeric(..., errors="coerce")`) likewise takes a
    `parseNum` parameter.

Sources embedded: src/ingestion/airnow_daily.py, src/ingestion/aqs_monthly.py,
src/ingestion/purpleair_daily.py, src/ingestion/openmeteo_recent.py,
src/ingestion/hvo.py, src/data_cleaner.py, src/data_merger.py.
-/

/-- Scalar value of one CSV / API cell.  `na` is pandas NaN / NaT / None. -/
inductive Cell where
  | num (x : Int)
  | str (s : String)
  | boolv (b : Bool)
  | na
  deriving DecidableEq

/-- Predicate for a missing cell, pandas `isna`. -/
def Cell.isna : Cell → Bool
  | Cell.na => true
  | _ => false

/-- Embedding of `pd.to_numeric(..., errors="coerce")` on one cell: numbers
pass through, strings go through the numeric parser and become missing when
unparsable, booleans become 0 / 1, missing stays missing. -/
def toNumericCell (parseNum : String → Option Int) : Cell → Cell
  | Cell.num x => Cell.num x
  | Cell.str s =>
    match parseNum s with
    | some x => Cell.num x
    | none => Cell.na
  | Cell.boolv b => Cell.num (if b then 1 else 0)
  | Cell.na => Cell.na

/-- Worker for `dedupBy`: drops every row whose key was already seen. -/
def dedupByAux {α κ : Type} (f : α → κ) [DecidableEq κ] (seen : List κ) : List α → List α
  | [] => []
  | r :: rs => if f r ∈ seen then dedupByAux f seen rs else r :: dedupByAux f (f r :: seen) rs

/-- Embedding of pandas `DataFrame.drop_duplicates(subset=..., keep="first")`:
keep the first row of every group of rows sharing the key `f`. -/
def dedupBy {α κ : Type} (f : α → κ) [DecidableEq κ] (rows : List α) : List α :=
  dedupByAux f [] rows

/-- Boolean order on optional timestamps: `none` (NaT) sorts last, matching
pandas `sort_values(..., na_position="last")`. -/
def tsLeB : Option Int → Option Int → Bool
  | some a, some b => a ≤ b
  | some _, none => true
  | none, some _ => false
  | none, none => true

/-- Row order by the timestamp projection `dtOf`, used for `sort_values`. -/
def byTs {α : Type} (dtOf : α → Option Int) : α → α → Prop :=
  fun a b => tsLeB (dtOf a) (dtOf b) = true

instance {α : Type} {dtOf : α → Option Int} : DecidableRel (byTs dtOf) :=
  fun a b => inferInstanceAs (Decidable (tsLeB (dtOf a) (dtOf b) = true))

instance {α : Type} {dtOf : α → Option Int} : IsTotal α (byTs dtOf) := by
  constructor
  intro a b
  unfold byTs
  rcases dtOf a with _ | x <;> rcases dtOf b with _ | y <;> simp [tsLeB] <;> omega

instance {α : Type} {dtOf : α → Option Int} : IsTrans α (byTs dtOf) := by
  constructor
  intro a b c hab hbc
  unfold byTs at hab hbc ⊢
  revert hab hbc
  rcases dtOf a with _ | x <;> rcases dtOf b with _ | y <;> rcases dtOf c with _ | z <;>
    simp [tsLeB] <;> omega

/-- Embedding of `sort_values("datetime_utc")`.  The pandas default sort is an
unstable quicksort; no claim in this development depends on the order within a
group of equal timestamps, so a concrete (insertion) sort is used. -/
def sortByTs {α : Type} (dtOf : α → Option Int) (l : List α) : List α :=
  List.insertionSort (byTs dtOf) l

/-- Elementwise pandas `.ne` between a column and its `shift()`: a comparison
involving a missing value is never an equality, so `ne` yields true. -/
def pandasNe {α : Type} [DecidableEq α] : Option α → Option α → Bool
  | some x, some y => decide (x ≠ y)
  | _, _ => true

/-- Embedding of `Series.dt.floor("h")` on an epoch-seconds timestamp. -/
def floorHour (t : Int) : Int := t - t % 3600

/- ===================================================================
   Incremental append engines, one per ingestion path (spec section 4.4).
   =================================================================== -/

/-- Embedding of `_append_day` from src/ingestion/airnow_daily.py (lines
43-49): if the freshly fetched row list is empty nothing is written, otherwise
the rows are appended to the raw archive CSV exactly as they are — the AirNow
daily path performs no deduplication.  The rows are opaque to the function,
hence the type parameter. -/
def appendDay {α : Type} (archive : List α) (rows : List α) : List α :=
  if rows.isEmpty then archive else archive ++ rows

/-- Embedding of the module-level append loop of
src/ingestion/purpleair_daily.py (lines 62-93): for each sensor, the fetched
per-sensor frame is appended to the raw archive CSV when non-empty — again
with no deduplication.  `batches` is the list of per-sensor frames in loop
order. -/
def purpleairDailyAppend {α : Type} (archive : List α) (batches : List (List α)) : List α :=
  batches.foldl (fun acc b => if b.isEmpty then acc else acc ++ b) archive

/-- Raw record returned by the HVO status endpoint, as assembled in
src/ingestion/hvo.py lines 34-48. -/
structure HvoApiRecord where
  timestamp_utc : String
  alertDate : String
  colorDate : String
  alertLevel : Option String
  colorCode : Option String
  noticeSynopsis : Cell
  noticeId : Option String
  noticeUrl : Cell
  vName : Cell
  nvewsThreat : Cell
  deriving DecidableEq

/-- Row of the persisted HVO archive: the API record plus the derived
`new_notice` flag. -/
structure HvoArchiveRow extends HvoApiRecord where
  new_notice : Bool
  deriving DecidableEq

/-- Embedding of the HVO hourly archive update (src/ingestion/hvo.py lines
50-61): derive `new_notice` by comparing against the archive's last row
(`True` on first run), then blindly append the one fetched record — no
deduplication. -/
def hvoAppend (archive : List HvoArchiveRow) (rec : HvoApiRecord) : List HvoArchiveRow :=
  let newNotice : Bool :=
    match archive.getLast? with
    | some lastRow => decide (rec.noticeId ≠ lastRow.noticeId)
    | none => true
  archive ++ [⟨rec, newNotice⟩]

/-- Row of the raw AQS archive / API response (src/ingestion/aqs_monthly.py).
Columns of the AQS response that no embedded operation ever consults are
collapsed into the opaque `otherColumns` cell. -/
structure AqsApiRow where
  state_code : String
  county_code : String
  site_number : String
  parameter_code : String
  date_local : String
  time_local : String
  date_gmt : String
  time_gmt : String
  sample_measurement : Cell
  qualifier : Option String
  uncertainty : Cell
  datum : Cell
  units_of_measure_code : Cell
  sample_duration_code : Cell
  otherColumns : Cell
  deriving DecidableEq

/-- Identity key used by `append_unique` in src/ingestion/aqs_monthly.py
(lines 93-97). -/
def aqsArchiveKey (r : AqsApiRow) : String × String × String × String × String × String :=
  (r.state_code, r.county_code, r.site_number, r.date_local, r.time_local, r.parameter_code)

/-- Embedding of `append_unique` from src/ingestion/aqs_monthly.py (lines
86-102) for an existing archive: concatenate then drop duplicates on the
identity key, keeping the first (previously persisted) row.  An empty fetched
batch leaves the archive untouched (`if not rows: return 0`).  The first-run
branch (no archive file yet) writes the batch verbatim; the idempotence claim
quantifies over an existing persisted archive, which this models. -/
def append_unique (archive : List AqsApiRow) (rows : List AqsApiRow) : List AqsApiRow :=
  if rows.isEmpty then archive else dedupBy aqsArchiveKey (archive ++ rows)

/-- Row of the Open-Meteo hourly archive
(src/ingestion/openmeteo_recent.py). -/
structure OmArchiveRow where
  datetime_utc : Option Int
  temperature_2m : Cell
  relative_humidity_2m : Cell
  precipitation : Cell
  rain : Cell
  wind_speed_10m : Cell
  wind_direction_10m : Cell
  wind_gusts_10m : Cell
  latitude : Cell
  longitude : Cell
  elevation_m : Cell
  deriving DecidableEq

/-- Embedding of the merge step of src/ingestion/openmeteo_recent.py (lines
110-120): when the fetched batch is empty the script returns without writing;
otherwise the archive becomes the concatenation, deduplicated on
`datetime_utc` (first row kept) and sorted by timestamp. -/
def openmeteoMerge (existing : List OmArchiveRow) (newRows : List OmArchiveRow) :
    List OmArchiveRow :=
  if newRows.isEmpty then existing
  else sortByTs OmArchiveRow.datetime_utc (dedupBy OmArchiveRow.datetime_utc (existing ++ newRows))

/- ===================================================================
   Source normalizers (src/data_cleaner.py).
   =================================================================== -/

/-- Raw AirNow archive row with the twelve columns named in
src/data_cleaner.py lines 29-33.  The header-reconstruction branch of
`clean_airnow` (line 27) only repairs column labels of a header-less CSV and
has no effect on a row-typed frame, so it does not appear here. -/
structure AirNowRow where
  DateObserved : String
  HourObserved : Int
  LocalTimeZone : Cell
  ReportingArea : String
  StateCode : Cell
  Latitude : Cell
  Longitude : Cell
  ParameterName : String
  AQI : Cell
  Category : Cell
  DateLocal : Cell
  HourLocal : Cell
  deriving DecidableEq

/-- Cleaned AirNow row: the raw row minus the dropped columns
(`DateObserved`, `HourObserved`, `DateLocal`, `HourLocal`, `LocalTimeZone`),
plus the derived `datetime_utc`. -/
structure AirNowCleanRow where
  ReportingArea : String
  StateCode : Cell
  Latitude : Cell
  Longitude : Cell
  ParameterName : String
  AQI : Cell
  Category : Cell
  datetime_utc : Option Int
  deriving DecidableEq

/-- Duplicate key of `clean_airnow` (src/data_cleaner.py line 52). -/
def airnowKey (r : AirNowCleanRow) : String × String × Option Int :=
  (r.ReportingArea, r.ParameterName, r.datetime_utc)

/-- Claim-side key: timestamp plus the AirNow identity key. -/
def airnowPairKey (r : AirNowCleanRow) : Option Int × String × String :=
  (r.datetime_utc, r.ReportingArea, r.ParameterName)

/-- Timestamp-derivation stage of `clean_airnow` (src/data_cleaner.py lines
36-49): build `datetime_utc` from `DateObserved + " " + str(HourObserved)`
with coercion of unparsable combinations to NaT, and drop the redundant
columns. -/
def airnowWithTs (parse : String → Option Int) (df : List AirNowRow) : List AirNowCleanRow :=
  df.map (fun r =>
    { ReportingArea := r.ReportingArea
      StateCode := r.StateCode
      Latitude := r.Latitude
      Longitude := r.Longitude
      ParameterName := r.ParameterName
      AQI := r.AQI
      Category := r.Category
      datetime_utc := parse (r.DateObserved ++ " " ++ toString r.HourObserved) })

/-- Embedding of `clean_airnow` (src/data_cleaner.py lines 16-58): derive the
timestamp, drop columns, drop duplicates on
(ReportingArea, ParameterName, datetime_utc), sort ascending. -/
def clean_airnow (parse : String → Option Int) (df : List AirNowRow) : List AirNowCleanRow :=
  sortByTs AirNowCleanRow.datetime_utc (dedupBy airnowKey (airnowWithTs parse df))

/-- Cleaned AQS row: the archive row minus the dropped columns (`date_local`,
`time_local`, `date_gmt`, `time_gmt`, `uncertainty`, `datum`,
`units_of_measure_code`, `sample_duration_code`), with the qualifier
null-filled and the derived `datetime_utc`. -/
structure AqsCleanRow where
  state_code : String
  county_code : String
  site_number : String
  parameter_code : String
  sample_measurement : Cell
  qualifier : String
  otherColumns : Cell
  datetime_utc : Option Int
  deriving DecidableEq

/-- Duplicate key of `clean_aqs` (src/data_cleaner.py lines 93-95). -/
def aqsCleanKey (r : AqsCleanRow) : String × String × String × Option Int × String :=
  (r.state_code, r.county_code, r.site_number, r.datetime_utc, r.parameter_code)

/-- Claim-side key: timestamp plus the AQS identity key. -/
def aqsPairKey (r : AqsCleanRow) : Option Int × String × String × String × String :=
  (r.datetime_utc, r.state_code, r.county_code, r.site_number, r.parameter_code)

/-- Timestamp-derivation stage of `clean_aqs` (src/data_cleaner.py lines
74-90): combine the GMT date and time strings into `datetime_utc` (coercing
failures to NaT), drop columns, and null-fill the qualifier with the literal
string "None". -/
def aqsWithTs (parse : String → Option Int) (df : List AqsApiRow) : List AqsCleanRow :=
  df.map (fun r =>
    { state_code := r.state_code
      county_code := r.county_code
      site_number := r.site_number
      parameter_code := r.parameter_code
      sample_measurement := r.sample_measurement
      qualifier := r.qualifier.getD "None"
      otherColumns := r.otherColumns
      datetime_utc := parse (r.date_gmt ++ " " ++ r.time_gmt) })

/-- Embedding of `clean_aqs` (src/data_cleaner.py lines 63-101): derive the
timestamp, drop columns, fill qualifiers, drop duplicates on
(state, county, site, datetime_utc, parameter_code), sort ascending, and only
then floor `datetime_utc` to the start of its hour. -/
def clean_aqs (parse : String → Option Int) (df : List AqsApiRow) : List AqsCleanRow :=
  (sortByTs AqsCleanRow.datetime_utc (dedupBy aqsCleanKey (aqsWithTs parse df))).map
    (fun r => { r with datetime_utc := r.datetime_utc.map floorHour })

/-- Raw PurpleAir row, with the columns written by
src/ingestion/purpleair_daily.py.  `time_stamp` and `last_seen` are
epoch-seconds values (missing entries are NaT after conversion); which of the
two columns actually exists in a given frame is recorded in
`PurpleAirFrame.cols`. -/
structure PurpleAirRawRow where
  time_stamp : Option Int
  last_seen : Option Int
  sensor_index : Int
  pm25_atm : Cell
  pm25_cf1 : Cell
  humidity : Cell
  temperature : Cell
  pressure : Cell
  latitude : Cell
  longitude : Cell
  sensor_name : Cell
  deriving DecidableEq

/-- PurpleAir input frame: the list of column names actually present plus the
rows.  A field of a row whose column name is not in `cols` is phantom and is
never consulted by the embedded cleaner. -/
structure PurpleAirFrame where
  cols : List String
  rows : List PurpleAirRawRow
  deriving DecidableEq

/-- Cleaned PurpleAir row: the raw row minus the dropped time fields, plus
the derived hour-floored `datetime_utc`. -/
structure PurpleAirCleanRow where
  sensor_index : Int
  pm25_atm : Cell
  pm25_cf1 : Cell
  humidity : Cell
  temperature : Cell
  pressure : Cell
  latitude : Cell
  longitude : Cell
  sensor_name : Cell
  datetime_utc : Option Int
  deriving DecidableEq

/-- Duplicate key of `clean_purpleair` (src/data_cleaner.py line 130). -/
def paKey (r : PurpleAirCleanRow) : Int × Option Int :=
  (r.sensor_index, r.datetime_utc)

/-- Claim-side key: timestamp plus the PurpleAir identity key (sensor id). -/
def paPairKey (r : PurpleAirCleanRow) : Option Int × Int :=
  (r.datetime_utc, r.sensor_index)

/-- Conversion of one raw PurpleAir row given the chosen epoch-seconds time
source `tOf`: convert to UTC and floor to the hour (src/data_cleaner.py lines
116-127). -/
def paToClean (tOf : PurpleAirRawRow → Option Int) (r : PurpleAirRawRow) : PurpleAirCleanRow :=
  { sensor_index := r.sensor_index
    pm25_atm := r.pm25_atm
    pm25_cf1 := r.pm25_cf1
    humidity := r.humidity
    temperature := r.temperature
    pressure := r.pressure
    latitude := r.latitude
    longitude := r.longitude
    sensor_name := r.sensor_name
    datetime_utc := (tOf r).map floorHour }

/-- Embedding of `clean_purpleair` (src/data_cleaner.py lines 104-136): use
the `time_stamp` column when present, otherwise `last_seen`, otherwise raise
a ValueError; floor the converted timestamp to the hour, drop the raw time
fields, drop duplicates on (sensor_index, datetime_utc), sort ascending. -/
def clean_purpleair (fr : PurpleAirFrame) : Except String (List PurpleAirCleanRow) :=
  if "time_stamp" ∈ fr.cols then
    Except.ok (sortByTs PurpleAirCleanRow.datetime_utc
      (dedupBy paKey (fr.rows.map (paToClean PurpleAirRawRow.time_stamp))))
  else if "last_seen" ∈ fr.cols then
    Except.ok (sortByTs PurpleAirCleanRow.datetime_utc
      (dedupBy paKey (fr.rows.map (paToClean PurpleAirRawRow.last_seen))))
  else Except.error "Expected a time_stamp or last_seen column in the data."

/-- Intermediate cleaned HVO row, before the change flags are attached:
the archive row with the three time columns parsed and `timestamp_utc`
renamed to `datetime_utc` (src/data_cleaner.py lines 150-156). -/
structure HvoCleanBase where
  datetime_utc : Option Int
  alertDate : Option Int
  colorDate : Option Int
  alertLevel : Option String
  colorCode : Option String
  noticeSynopsis : Cell
  noticeId : Option String
  noticeUrl : Cell
  vName : Cell
  nvewsThreat : Cell
  new_notice : Bool
  deriving DecidableEq

/-- Final cleaned HVO row with the two derived change flags. -/
structure HvoCleanRow extends HvoCleanBase where
  alert_change : Bool
  color_change : Bool
  deriving DecidableEq

/-- Claim-side key: timestamp plus the HVO identity key (notice id). -/
def hvoPairKey (r : HvoCleanRow) : Option Int × Option String :=
  (r.datetime_utc, r.noticeId)

/-- Parsing stage of `clean_hvo`: convert the three candidate time columns
with coercion and take `timestamp_utc` as the canonical timestamp. -/
def hvoToCleanBase (parse : String → Option Int) (r : HvoArchiveRow) : HvoCleanBase :=
  { datetime_utc := parse r.timestamp_utc
    alertDate := parse r.alertDate
    colorDate := parse r.colorDate
    alertLevel := r.alertLevel
    colorCode := r.colorCode
    noticeSynopsis := r.noticeSynopsis
    noticeId := r.noticeId
    noticeUrl := r.noticeUrl
    vName := r.vName
    nvewsThreat := r.nvewsThreat
    new_notice := r.new_notice }

/-- Embedding of the change-flag derivation of `clean_hvo`
(src/data_cleaner.py lines 162-163): `alert_change` / `color_change` at a row
are the pandas `ne` of the value against the previous sorted row's value,
where the carried `prevAlert` / `prevColor` are the shifted values (NaN, that
is `none`, before the first row). -/
def addChangeFlags (prevAlert prevColor : Option String) : List HvoCleanBase → List HvoCleanRow
  | [] => []
  | r :: rs =>
    ⟨r, pandasNe r.alertLevel prevAlert, pandasNe r.colorCode prevColor⟩ ::
      addChangeFlags r.alertLevel r.colorCode rs

/-- Embedding of `clean_hvo` (src/data_cleaner.py lines 139-166): parse the
time columns, rename, drop duplicates on `noticeId` alone, sort ascending by
`datetime_utc`, then derive the change flags against the shifted columns. -/
def clean_hvo (parse : String → Option Int) (df : List HvoArchiveRow) : List HvoCleanRow :=
  addChangeFlags none none
    (sortByTs HvoCleanBase.datetime_utc
      (dedupBy HvoCleanBase.noticeId (df.map (hvoToCleanBase parse))))

/-- Raw Open-Meteo row (string timestamp still unparsed; which columns exist
is recorded in `OmFrame.cols`). -/
structure OmRawRow where
  datetime_utc : String
  temperature_2m : Cell
  relative_humidity_2m : Cell
  precipitation : Cell
  rain : Cell
  wind_speed_10m : Cell
  wind_direction_10m : Cell
  wind_gusts_10m : Cell
  latitude : Cell
  longitude : Cell
  elevation_m : Cell
  deriving DecidableEq

/-- Open-Meteo input frame: present column names plus rows.  A field whose
column name is absent from `cols` is phantom and never consulted. -/
structure OmFrame where
  cols : List String
  rows : List OmRawRow
  deriving DecidableEq

/-- Cleaned Open-Meteo row: parsed timestamp plus the (possibly coerced)
meteorological fields. -/
structure OmCleanRow where
  datetime_utc : Option Int
  temperature_2m : Cell
  relative_humidity_2m : Cell
  precipitation : Cell
  rain : Cell
  wind_speed_10m : Cell
  wind_direction_10m : Cell
  wind_gusts_10m : Cell
  latitude : Cell
  longitude : Cell
  elevation_m : Cell
  deriving DecidableEq

/-- Numeric columns coerced by `clean_openmeteo` (src/data_cleaner.py lines
185-189). -/
def omNumCols : List String :=
  ["temperature_2m", "relative_humidity_2m", "precipitation", "rain",
   "wind_speed_10m", "wind_direction_10m", "wind_gusts_10m",
   "latitude", "longitude", "elevation_m"]

/-- Core weather columns of `clean_openmeteo` (src/data_cleaner.py lines
195-198): a row is dropped exactly when all of these that exist as columns
are simultaneously missing. -/
def omCoreCols : List String :=
  ["temperature_2m", "relative_humidity_2m", "precipitation", "wind_speed_10m"]

/-- Field access by column name on a cleaned Open-Meteo row (queried only for
names in `omNumCols`). -/
def omGetField (r : OmCleanRow) (c : String) : Cell :=
  if c = "temperature_2m" then r.temperature_2m
  else if c = "relative_humidity_2m" then r.relative_humidity_2m
  else if c = "precipitation" then r.precipitation
  else if c = "rain" then r.rain
  else if c = "wind_speed_10m" then r.wind_speed_10m
  else if c = "wind_direction_10m" then r.wind_direction_10m
  else if c = "wind_gusts_10m" then r.wind_gusts_10m
  else if c = "latitude" then r.latitude
  else if c = "longitude" then r.longitude
  else if c = "elevation_m" then r.elevation_m
  else Cell.na

/-- Per-row stage of `clean_openmeteo` lines 182-192: parse the timestamp
with coercion, and coerce to numeric every listed numeric column that is
present in the frame. -/
def omCoerceRow (parseTs : String → Option Int) (parseNum : String → Option Int)
    (cols : List String) (r : OmRawRow) : OmCleanRow :=
  { datetime_utc := parseTs r.datetime_utc
    temperature_2m :=
      if "temperature_2m" ∈ cols then toNumericCell parseNum r.temperature_2m
      else r.temperature_2m
    relative_humidity_2m :=
      if "relative_humidity_2m" ∈ cols then toNumericCell parseNum r.relative_humidity_2m
      else r.relative_humidity_2m
    precipitation :=
      if "precipitation" ∈ cols then toNumericCell parseNum r.precipitation
      else r.precipitation
    rain := if "rain" ∈ cols then toNumericCell parseNum r.rain else r.rain
    wind_speed_10m :=
      if "wind_speed_10m" ∈ cols then toNumericCell parseNum r.wind_speed_10m
      else r.wind_speed_10m
    wind_direction_10m :=
      if "wind_direction_10m" ∈ cols then toNumericCell parseNum r.wind_direction_10m
      else r.wind_direction_10m
    wind_gusts_10m :=
      if "wind_gusts_10m" ∈ cols then toNumericCell parseNum r.wind_gusts_10m
      else r.wind_gusts_10m
    latitude := if "latitude" ∈ cols then toNumericCell parseNum r.latitude else r.latitude
    longitude := if "longitude" ∈ cols then toNumericCell parseNum r.longitude else r.longitude
    elevation_m :=
      if "elevation_m" ∈ cols then toNumericCell parseNum r.elevation_m else r.elevation_m }

/-- Keep-condition of the `dropna(subset=[core columns present], how="all")`
step (src/data_cleaner.py line 199): a row is kept exactly when at least one
core column that is present in the frame carries a non-missing value. -/
def omRowKeep (cols : List String) (r : OmCleanRow) : Bool :=
  (omCoreCols.filter (fun c => decide (c ∈ cols))).any (fun c => ! (omGetField r c).isna)

/-- The condition the claim describes: every core column present in the frame
is simultaneously missing in the row. -/
def allCoreNa (cols : List String) (r : OmCleanRow) : Bool :=
  (omCoreCols.filter (fun c => decide (c ∈ cols))).all (fun c => (omGetField r c).isna)

/-- Coercion stage of `clean_openmeteo` applied to a whole frame. -/
def omCoerced (parseTs : String → Option Int) (parseNum : String → Option Int)
    (fr : OmFrame) : List OmCleanRow :=
  fr.rows.map (omCoerceRow parseTs parseNum fr.cols)

/-- Embedding of `clean_openmeteo` (src/data_cleaner.py lines 169-205):
require the `datetime_utc` column (ValueError otherwise), parse it with
coercion, coerce the numeric columns, drop rows whose present core weather
columns are all missing, drop duplicates on `datetime_utc`, sort
ascending. -/
def clean_openmeteo (parseTs : String → Option Int) (parseNum : String → Option Int)
    (fr : OmFrame) : Except String (List OmCleanRow) :=
  if "datetime_utc" ∈ fr.cols then
    Except.ok (sortByTs OmCleanRow.datetime_utc
      (dedupBy OmCleanRow.datetime_utc ((omCoerced parseTs parseNum fr).filter (omRowKeep fr.cols))))
  else Except.error "Expected datetime_utc column in Open-Meteo data."

/- ===================================================================
   Merge engine (src/data_merger.py).
   =================================================================== -/

/-- Prepared AQS frame row (`prep_aqs`, src/data_merger.py lines 85-93). -/
structure PAqsRow where
  dt : Option Int
  pm25_aqs : Cell
  deriving DecidableEq

/-- Prepared AirNow frame row (`prep_airnow`, lines 95-101). -/
structure PAirnowRow where
  dt : Option Int
  aqi_airnow : Cell
  deriving DecidableEq

/-- Prepared PurpleAir frame row (`prep_purpleair`, lines 103-115). -/
structure PPurpleairRow where
  dt : Option Int
  pm25_purpleair : Cell
  humidity : Cell
  temperature : Cell
  pressure : Cell
  deriving DecidableEq

/-- Prepared Open-Meteo frame row (`prep_openmeteo`, lines 117-132). -/
structure POmRow where
  dt : Option Int
  temperature_2m : Cell
  relative_humidity_2m : Cell
  precipitation : Cell
  rain : Cell
  wind_speed_10m : Cell
  wind_direction_10m : Cell
  wind_gusts_10m : Cell
  deriving DecidableEq

/-- Prepared HVO frame row (`prep_hvo`, lines 134-145). -/
structure PHvoRow where
  dt : Option Int
  alertLevel : Cell
  colorCode : Cell
  alert_change : Cell
  color_change : Cell
  deriving DecidableEq

/-- Row of the merged table: the grid timestamp plus every source's value
columns.  A column of a source with no matching row at the timestamp — or a
source skipped because its frame is empty — holds `Cell.na`. -/
structure MergedRow where
  datetime_utc : Int
  pm25_aqs : Cell
  aqi_airnow : Cell
  pm25_purpleair : Cell
  humidity : Cell
  temperature : Cell
  pressure : Cell
  temperature_2m : Cell
  relative_humidity_2m : Cell
  precipitation : Cell
  rain : Cell
  wind_speed_10m : Cell
  wind_direction_10m : Cell
  wind_gusts_10m : Cell
  alertLevel : Cell
  colorCode : Cell
  alert_change : Cell
  color_change : Cell
  deriving DecidableEq

/-- Base-table row for one grid timestamp (line 169): all value columns
missing. -/
def MergedRow.base (t : Int) : MergedRow :=
  { datetime_utc := t
    pm25_aqs := Cell.na
    aqi_airnow := Cell.na
    pm25_purpleair := Cell.na
    humidity := Cell.na
    temperature := Cell.na
    pressure := Cell.na
    temperature_2m := Cell.na
    relative_humidity_2m := Cell.na
    precipitation := Cell.na
    rain := Cell.na
    wind_speed_10m := Cell.na
    wind_direction_10m := Cell.na
    wind_gusts_10m := Cell.na
    alertLevel := Cell.na
    colorCode := Cell.na
    alert_change := Cell.na
    color_change := Cell.na }

/-- Write the AQS value columns of a matched source row into a merged row. -/
def setAqs (b : MergedRow) (s : PAqsRow) : MergedRow :=
  { b with pm25_aqs := s.pm25_aqs }

/-- Write the AirNow value columns. -/
def setAirnow (b : MergedRow) (s : PAirnowRow) : MergedRow :=
  { b with aqi_airnow := s.aqi_airnow }

/-- Write the PurpleAir value columns. -/
def setPurpleair (b : MergedRow) (s : PPurpleairRow) : MergedRow :=
  { b with
    pm25_purpleair := s.pm25_purpleair
    humidity := s.humidity
    temperature := s.temperature
    pressure := s.pressure }

/-- Write the Open-Meteo value columns. -/
def setOm (b : MergedRow) (s : POmRow) : MergedRow :=
  { b with
    temperature_2m := s.temperature_2m
    relative_humidity_2m := s.relative_humidity_2m
    precipitation := s.precipitation
    rain := s.rain
    wind_speed_10m := s.wind_speed_10m
    wind_direction_10m := s.wind_direction_10m
    wind_gusts_10m := s.wind_gusts_10m }

/-- Write the HVO value columns. -/
def setHvo (b : MergedRow) (s : PHvoRow) : MergedRow :=
  { b with
    alertLevel := s.alertLevel
    colorCode := s.colorCode
    alert_change := s.alert_change
    color_change := s.color_change }

/-- Matching block of one merged row under a pandas left merge: the source
rows with the same `datetime_utc` — no match leaves the row as is (value
columns missing), several matches fan the row out in the source's row
order. -/
def joinBlock {σ : Type} (src : List σ) (sdt : σ → Option Int)
    (set : MergedRow → σ → MergedRow) (b : MergedRow) : List MergedRow :=
  let ms := src.filter (fun s => decide (sdt s = some b.datetime_utc))
  if ms.isEmpty then [b] else ms.map (set b)

/-- Embedding of the inner `left_join` of `merge_all` (src/data_merger.py
lines 171-174): an empty source frame is skipped; otherwise every current row
is replaced by its matching block. -/
def leftJoinStep {σ : Type} (rows : List MergedRow) (src : List σ)
    (sdt : σ → Option Int) (set : MergedRow → σ → MergedRow) : List MergedRow :=
  if src.isEmpty then rows else rows.flatMap (joinBlock src sdt set)

/-- First-match update: write into `b` the value columns of the first source
row whose timestamp equals the merged row's timestamp, if any. -/
def applyFirst {σ : Type} (src : List σ) (sdt : σ → Option Int)
    (set : MergedRow → σ → MergedRow) (b : MergedRow) : MergedRow :=
  match src.find? (fun s => decide (sdt s = some b.datetime_utc)) with
  | some s => set b s
  | none => b

/-- Embedding of `Series.min()` on a timestamp column: pandas skips missing
values and returns NaT only when no value remains. -/
def colMin (col : List (Option Int)) : Option Int :=
  match col.filterMap id with
  | [] => none
  | x :: xs => some (xs.foldl min x)

/-- Embedding of `Series.max()` on a timestamp column. -/
def colMax (col : List (Option Int)) : Option Int :=
  match col.filterMap id with
  | [] => none
  | x :: xs => some (xs.foldl max x)

/-- Python comparison of two optional timestamps: any comparison against NaT
is False. -/
def pyLt (a b : Option Int) : Bool :=
  match a, b with
  | some x, some y => decide (x < y)
  | _, _ => false

/-- Python comparison, greater-than variant. -/
def pyGt (a b : Option Int) : Bool :=
  match a, b with
  | some x, some y => decide (x > y)
  | _, _ => false

/-- Embedding of the Python builtin `min` over the per-frame minima: start
with the first element, replace the accumulator only when the candidate
compares strictly smaller.  Because every comparison with NaT is False, a
NaT in first position is never replaced. -/
def pyMin : List (Option Int) → Option Int
  | [] => none
  | x :: xs => xs.foldl (fun acc y => if pyLt y acc then y else acc) x

/-- Embedding of the Python builtin `max` over the per-frame maxima. -/
def pyMax : List (Option Int) → Option Int
  | [] => none
  | x :: xs => xs.foldl (fun acc y => if pyGt y acc then y else acc) x

/-- Embedding of `pd.date_range(start, end, freq="H")` on epoch seconds:
every hour step from `start` while not exceeding `end`; empty when
`start > end`. -/
def hourRange (s e : Int) : List Int :=
  if s ≤ e then
    (List.range (((e - s) / 3600).toNat + 1)).map (fun k : Nat => s + 3600 * (k : Int))
  else []

/-- Embedding of `DataMerger.build_hourly_index` (src/data_merger.py lines
148-156) on the `datetime_utc` columns of the five prepared frames:
`min` / `max` over the per-frame extrema with Python NaT semantics, then the
hourly range; `pd.date_range` raises a ValueError on a NaT bound, modelled as
`none`. -/
def build_hourly_index (cols : List (List (Option Int))) : Option (List Int) :=
  match pyMin (cols.map colMin), pyMax (cols.map colMax) with
  | some s, some e => some (hourRange s e)
  | _, _ => none

/-- Timestamp columns of the five prepared frames, in the fixed precedence
order of `merge_all` line 167. -/
def dtCols (aqs : List PAqsRow) (airnow : List PAirnowRow) (pa : List PPurpleairRow)
    (om : List POmRow) (hvo : List PHvoRow) : List (List (Option Int)) :=
  [aqs.map PAqsRow.dt, airnow.map PAirnowRow.dt, pa.map PPurpleairRow.dt,
   om.map POmRow.dt, hvo.map PHvoRow.dt]

/-- Embedding of `DataMerger.merge_all` (src/data_merger.py lines 158-188)
from the five prepared frames on: build the hourly grid, left-join each
source in the fixed order {AQS, AirNow, PurpleAir, Open-Meteo, HVO}, then
drop exact-duplicate timestamps (first row kept) and re-sort ascending.
`none` models the run aborting because the grid bounds are NaT. -/
def merge_all (aqs : List PAqsRow) (airnow : List PAirnowRow) (pa : List PPurpleairRow)
    (om : List POmRow) (hvo : List PHvoRow) : Option (List MergedRow) :=
  match build_hourly_index (dtCols aqs airnow pa om hvo) with
  | none => none
  | some g =>
    let base := g.map MergedRow.base
    let j1 := leftJoinStep base aqs PAqsRow.dt setAqs
    let j2 := leftJoinStep j1 airnow PAirnowRow.dt setAirnow
    let j3 := leftJoinStep j2 pa PPurpleairRow.dt setPurpleair
    let j4 := leftJoinStep j3 om POmRow.dt setOm
    let j5 := leftJoinStep j4 hvo PHvoRow.dt setHvo
    some (sortByTs (fun r => some r.datetime_utc) (dedupBy MergedRow.datetime_utc j5))

/-- Merged row the engine produces at grid timestamp `t`: the base row
updated with the first matching row of each source, in join order. -/
def mergedRowAt (aqs : List PAqsRow) (airnow : List PAirnowRow) (pa : List PPurpleairRow)
    (om : List POmRow) (hvo : List PHvoRow) (t : Int) : MergedRow :=
  applyFirst hvo PHvoRow.dt setHvo
    (applyFirst om POmRow.dt setOm
      (applyFirst pa PPurpleairRow.dt setPurpleair
        (applyFirst airnow PAirnowRow.dt setAirnow
          (applyFirst aqs PAqsRow.dt setAqs (MergedRow.base t)))))

/- ===================================================================
   Sample data used by concrete witnesses and counterexamples.
   =================================================================== -/

/-- Sample raw AirNow row. -/
def anRow1 : AirNowRow :=
  ⟨"2024-01-01", 10, Cell.na, "Hilo", Cell.na, Cell.na, Cell.na,
   "PM2.5", Cell.num 30, Cell.na, Cell.na, Cell.na⟩

/-- Second sample raw AirNow row, one hour later. -/
def anRow2 : AirNowRow :=
  ⟨"2024-01-01", 11, Cell.na, "Hilo", Cell.na, Cell.na, Cell.na,
   "PM2.5", Cell.num 31, Cell.na, Cell.na, Cell.na⟩

/-- Sample AirNow row whose observation date cannot be parsed. -/
def anRowBad : AirNowRow :=
  ⟨"BAD", 11, Cell.na, "Kona", Cell.na, Cell.na, Cell.na,
   "PM2.5", Cell.num 32, Cell.na, Cell.na, Cell.na⟩

/-- Sample parse table for the AirNow date-hour combinations above. -/
def anParse : String → Option Int := fun s =>
  if s = "2024-01-01 10" then some 36000
  else if s = "2024-01-01 11" then some 39600
  else none

/-- Sample raw AQS row (site 0007, parameter 88101, 20:00 GMT). -/
def aqsRow1 : AqsApiRow :=
  ⟨"15", "001", "0007", "88101", "2024-01-01", "10:00", "2024-01-01", "20:00",
   Cell.num 5, some "V", Cell.na, Cell.na, Cell.na, Cell.na, Cell.na⟩

/-- Second sample raw AQS row at the same site and parameter, 20:30 GMT —
thirty minutes into the same hour. -/
def aqsRow2 : AqsApiRow :=
  ⟨"15", "001", "0007", "88101", "2024-01-01", "10:30", "2024-01-01", "20:30",
   Cell.num 6, none, Cell.na, Cell.na, Cell.na, Cell.na, Cell.na⟩

/-- Sample parse table for the AQS GMT date-time combinations above. -/
def aqsParse : String → Option Int := fun s =>
  if s = "2024-01-01 20:00" then some 72000
  else if s = "2024-01-01 20:30" then some 73800
  else none

/-- Sample Open-Meteo archive row at hour 0. -/
def omRow1 : OmArchiveRow :=
  ⟨some 0, Cell.num 25, Cell.num 80, Cell.num 0, Cell.num 0, Cell.num 5,
   Cell.num 90, Cell.num 7, Cell.num 19, Cell.num (-155), Cell.num 10⟩

/-- Sample Open-Meteo archive row at hour 1. -/
def omRow2 : OmArchiveRow :=
  ⟨some 3600, Cell.num 26, Cell.num 81, Cell.num 0, Cell.num 0, Cell.num 6,
   Cell.num 91, Cell.num 8, Cell.num 19, Cell.num (-155), Cell.num 10⟩

/-- Sample HVO API record. -/
def hvoRec1 : HvoApiRecord :=
  ⟨"2024-01-01 00:00:00", "2023-12-31", "2023-12-31", some "WATCH", some "ORANGE",
   Cell.na, some "N1", Cell.na, Cell.na, Cell.na⟩

/-- Builder for the HVO archive rows of the change-flag example: notice id,
pull-time tag, and alert level (the color code stays fixed). -/
def hvoArchRow (nid ts lvl : String) : HvoArchiveRow :=
  ⟨⟨ts, "d", "d", some lvl, some "ORANGE", Cell.na, some nid, Cell.na, Cell.na, Cell.na⟩, true⟩

/-- Sample parse table mapping the pull-time tags t1..t5 to hours 1..5. -/
def hvoParse : String → Option Int := fun s =>
  if s = "t1" then some 3600
  else if s = "t2" then some 7200
  else if s = "t3" then some 10800
  else if s = "t4" then some 14400
  else if s = "t5" then some 18000
  else none

/-- Sample HVO archive for the change-flag scenario: five distinct notices in
time order with alert levels L1, L1, L2, L2, L3. -/
def hvoExampleDf : List HvoArchiveRow :=
  [hvoArchRow "N1" "t1" "L1", hvoArchRow "N2" "t2" "L1", hvoArchRow "N3" "t3" "L2",
   hvoArchRow "N4" "t4" "L2", hvoArchRow "N5" "t5" "L3"]

/-- Sample raw PurpleAir row (sensor 77, both time columns carried). -/
def paRow1 : PurpleAirRawRow :=
  ⟨some 7230, some 9999, 77, Cell.num 12, Cell.num 11, Cell.num 40, Cell.num 30,
   Cell.num 1013, Cell.na, Cell.na, Cell.na⟩

/-- Sample PurpleAir frame carrying both time columns. -/
def paFrameBoth : PurpleAirFrame :=
  ⟨["time_stamp", "last_seen", "sensor_index", "pm2.5_atm"], [paRow1]⟩

/-- Sample PurpleAir frame carrying only `last_seen`. -/
def paFrameLast : PurpleAirFrame :=
  ⟨["last_seen", "sensor_index", "pm2.5_atm"], [paRow1]⟩

/-- Sample PurpleAir frame carrying neither time column. -/
def paFrameNone : PurpleAirFrame :=
  ⟨["sensor_index", "pm2.5_atm"], [paRow1]⟩

/-- Sample raw Open-Meteo row at tag "a": only `rain` is missing — the core
columns all carry values. -/
def omRawRain : OmRawRow :=
  ⟨"a", Cell.num 25, Cell.num 80, Cell.num 0, Cell.na, Cell.num 5,
   Cell.num 90, Cell.num 7, Cell.num 19, Cell.num (-155), Cell.num 10⟩

/-- Sample raw Open-Meteo row at tag "b": all four core columns missing while
`rain` carries a value. -/
def omRawCoreNa : OmRawRow :=
  ⟨"b", Cell.na, Cell.na, Cell.na, Cell.num 2, Cell.na,
   Cell.num 90, Cell.num 7, Cell.num 19, Cell.num (-155), Cell.num 10⟩

/-- Sample raw Open-Meteo row at tag "c": the temperature is an unparsable
string while the humidity carries a value. -/
def omRawBadTemp : OmRawRow :=
  ⟨"c", Cell.str "oops", Cell.num 80, Cell.na, Cell.na, Cell.na,
   Cell.na, Cell.na, Cell.num 19, Cell.num (-155), Cell.num 10⟩

/-- Sample Open-Meteo frame with all columns present. -/
def omExampleFrame : OmFrame :=
  ⟨"datetime_utc" :: omNumCols, [omRawRain, omRawCoreNa, omRawBadTemp]⟩

/-- Sample timestamp parse table for the Open-Meteo tags. -/
def omParseTs : String → Option Int := fun s =>
  if s = "a" then some 0
  else if s = "b" then some 3600
  else if s = "c" then some 7200
  else none

/-- Sample numeric parse table: no string is numeric. -/
def omParseNum : String → Option Int := fun _ => none

/-- Sample prepared AQS rows: two rows at the same grid hour 0. -/
def pAqs1 : PAqsRow := ⟨some 0, Cell.num 5⟩

/-- Second prepared AQS row at hour 0 with a different measurement. -/
def pAqs2 : PAqsRow := ⟨some 0, Cell.num 6⟩

/-- Sample prepared AirNow row at hour 1. -/
def pAn1 : PAirnowRow := ⟨some 3600, Cell.num 40⟩

/-- Sample prepared PurpleAir row at hour 0. -/
def pPa1 : PPurpleairRow := ⟨some 0, Cell.num 12, Cell.num 40, Cell.num 30, Cell.num 1013⟩

/-- Sample prepared Open-Meteo row at hour 0. -/
def pOm1 : POmRow :=
  ⟨some 0, Cell.num 25, Cell.num 80, Cell.num 0, Cell.num 0, Cell.num 5,
   Cell.num 90, Cell.num 7⟩

/-- Sample prepared HVO row at hour 1. -/
def pHvo1 : PHvoRow :=
  ⟨some 3600, Cell.str "WATCH", Cell.str "ORANGE", Cell.boolv true, Cell.boolv false⟩

/-- Sample hour-aligned AQS parse table (only 20:00 GMT parses). -/
def aqsParseAligned : String → Option Int := fun s =>
  if s = "2024-01-01 20:00" then some 72000 else none

/-- Cleaned form of `omRawRain` under the sample parse tables. -/
def omCleanRain : OmCleanRow :=
  ⟨some 0, Cell.num 25, Cell.num 80, Cell.num 0, Cell.na, Cell.num 5,
   Cell.num 90, Cell.num 7, Cell.num 19, Cell.num (-155), Cell.num 10⟩

/-- Cleaned form of `omRawBadTemp` under the sample parse tables. -/
def omCleanBadTemp : OmCleanRow :=
  ⟨some 7200, Cell.na, Cell.num 80, Cell.na, Cell.na, Cell.na,
   Cell.na, Cell.na, Cell.num 19, Cell.num (-155), Cell.num 10⟩

/- ===================================================================
   General lemmas: dedupBy, sortByTs, find?.
   =================================================================== -/

theorem mem_of_mem_dedupByAux {α κ : Type} (f : α → κ) [DecidableEq κ] {seen : List κ}
    {l : List α} {x : α} (hx : x ∈ dedupByAux f seen l) : x ∈ l := by
  induction l generalizing seen with
  | nil => simp [dedupByAux] at hx
  | cons r rs ih =>
    by_cases h : f r ∈ seen
    · simp only [dedupByAux, if_pos h] at hx
      exact List.mem_cons_of_mem r (ih hx)
    · simp only [dedupByAux, if_neg h, List.mem_cons] at hx
      rcases hx with rfl | hx
      · exact List.mem_cons_self x rs
      · exact List.mem_cons_of_mem r (ih hx)

theorem key_not_seen_of_mem_dedupByAux {α κ : Type} (f : α → κ) [DecidableEq κ] {seen : List κ}
    {l : List α} {x : α} (hx : x ∈ dedupByAux f seen l) : f x ∉ seen := by
  induction l generalizing seen with
  | nil => simp [dedupByAux] at hx
  | cons r rs ih =>
    by_cases h : f r ∈ seen
    · simp only [dedupByAux, if_pos h] at hx
      exact ih hx
    · simp only [dedupByAux, if_neg h, List.mem_cons] at hx
      rcases hx with rfl | hx
      · exact h
      · intro hs
        exact ih hx (List.mem_cons_of_mem _ hs)

theorem nodup_keys_dedupByAux {α κ : Type} (f : α → κ) [DecidableEq κ] (seen : List κ)
    (l : List α) : ((dedupByAux f seen l).map f).Nodup := by
  induction l generalizing seen with
  | nil => simp [dedupByAux]
  | cons r rs ih =>
    by_cases h : f r ∈ seen
    · simp only [dedupByAux, if_pos h]
      exact ih seen
    · simp only [dedupByAux, if_neg h, List.map_cons, List.nodup_cons]
      refine ⟨?_, ih (f r :: seen)⟩
      intro hmem
      rcases List.mem_map.mp hmem with ⟨y, hy, hfy⟩
      exact key_not_seen_of_mem_dedupByAux f hy (by rw [hfy]; exact List.mem_cons_self _ _)

theorem nodup_keys_dedupBy {α κ : Type} (f : α → κ) [DecidableEq κ] (l : List α) :
    ((dedupBy f l).map f).Nodup :=
  nodup_keys_dedupByAux f [] l

theorem dedupByAux_skips_all {α κ : Type} (f : α → κ) [DecidableEq κ] {seen : List κ}
    {l : List α} (h : ∀ x ∈ l, f x ∈ seen) : dedupByAux f seen l = [] := by
  induction l with
  | nil => rfl
  | cons r rs ih =>
    have hr : f r ∈ seen := h r (List.mem_cons_self r rs)
    simp only [dedupByAux, if_pos hr]
    exact ih (fun x hx => h x (List.mem_cons_of_mem r hx))

theorem dedupByAux_append_absorb {α κ : Type} (f : α → κ) [DecidableEq κ] {seen : List κ}
    {l B : List α} (h : ∀ b ∈ B, f b ∈ seen ∨ f b ∈ l.map f) :
    dedupByAux f seen (l ++ B) = dedupByAux f seen l := by
  induction l generalizing seen with
  | nil =>
    simp only [List.nil_append]
    refine dedupByAux_skips_all f (fun b hb => ?_)
    rcases h b hb with hs | hm
    · exact hs
    · simp at hm
  | cons r rs ih =>
    by_cases hr : f r ∈ seen
    · simp only [List.cons_append, dedupByAux, if_pos hr]
      refine ih ?_
      intro b hb
      rcases h b hb with hs | hm
      · exact Or.inl hs
      · simp only [List.map_cons, List.mem_cons] at hm
        rcases hm with heq | hm
        · exact Or.inl (heq ▸ hr)
        · exact Or.inr hm
    · simp only [List.cons_append, dedupByAux, if_neg hr]
      congr 1
      refine ih ?_
      intro b hb
      rcases h b hb with hs | hm
      · exact Or.inl (List.mem_cons_of_mem _ hs)
      · simp only [List.map_cons, List.mem_cons] at hm
        rcases hm with heq | hm
        · exact Or.inl (heq ▸ List.mem_cons_self _ _)
        · exact Or.inr hm

theorem dedupBy_append_absorb {α κ : Type} (f : α → κ) [DecidableEq κ] {l B : List α}
    (h : ∀ b ∈ B, f b ∈ l.map f) : dedupBy f (l ++ B) = dedupBy f l :=
  dedupByAux_append_absorb f (fun b hb => Or.inr (h b hb))

theorem dedupByAux_eq_self {α κ : Type} (f : α → κ) [DecidableEq κ] {seen : List κ}
    {l : List α} (hnd : (l.map f).Nodup) (hs : ∀ x ∈ l, f x ∉ seen) :
    dedupByAux f seen l = l := by
  induction l generalizing seen with
  | nil => rfl
  | cons r rs ih =>
    simp only [List.map_cons, List.nodup_cons] at hnd
    have hr : f r ∉ seen := hs r (List.mem_cons_self r rs)
    simp only [dedupByAux, if_neg hr]
    congr 1
    refine ih hnd.2 ?_
    intro x hx
    simp only [List.mem_cons]
    rintro (heq | hmem)
    · exact hnd.1 (heq ▸ List.mem_map_of_mem f hx)
    · exact hs x (List.mem_cons_of_mem r hx) hmem

theorem dedupBy_eq_self {α κ : Type} (f : α → κ) [DecidableEq κ] {l : List α}
    (hnd : (l.map f).Nodup) : dedupBy f l = l :=
  dedupByAux_eq_self f hnd (fun x _ => List.not_mem_nil (f x))

theorem keys_covered_by_dedupByAux {α κ : Type} (f : α → κ) [DecidableEq κ] {seen : List κ}
    {l : List α} {x : α} (hx : x ∈ l) (hns : f x ∉ seen) :
    f x ∈ (dedupByAux f seen l).map f := by
  induction l generalizing seen with
  | nil => simp at hx
  | cons r rs ih =>
    by_cases hr : f r ∈ seen
    · simp only [dedupByAux, if_pos hr]
      rcases List.mem_cons.mp hx with rfl | hx
      · exact absurd hr hns
      · exact ih hx hns
    · simp only [dedupByAux, if_neg hr, List.map_cons, List.mem_cons]
      rcases List.mem_cons.mp hx with rfl | hx
      · exact Or.inl rfl
      · by_cases heq : f x = f r
        · exact Or.inl heq
        · refine Or.inr (ih hx ?_)
          simp only [List.mem_cons]
          rintro (h | h)
          · exact heq h
          · exact hns h

theorem keys_covered_by_dedupBy {α κ : Type} (f : α → κ) [DecidableEq κ] {l : List α}
    {x : α} (hx : x ∈ l) : f x ∈ (dedupBy f l).map f :=
  keys_covered_by_dedupByAux f hx (List.not_mem_nil (f x))

theorem dedupBy_union_idem {α κ : Type} (f : α → κ) [DecidableEq κ] (A B : List α) :
    dedupBy f (dedupBy f (A ++ B) ++ B) = dedupBy f (A ++ B) := by
  have hcov : ∀ b ∈ B, f b ∈ ([] : List κ) ∨ f b ∈ (dedupBy f (A ++ B)).map f := by
    intro b hb
    exact Or.inr (keys_covered_by_dedupBy f (List.mem_append_right A hb))
  rw [dedupBy, dedupByAux_append_absorb f hcov]
  exact dedupBy_eq_self f (nodup_keys_dedupBy f (A ++ B))

theorem mem_dedupByAux_of_unique_key {α κ : Type} (f : α → κ) [DecidableEq κ] {seen : List κ}
    {l : List α} {x : α} (hx : x ∈ l) (hns : f x ∉ seen)
    (huniq : ∀ y ∈ l, f y = f x → y = x) : x ∈ dedupByAux f seen l := by
  induction l generalizing seen with
  | nil => simp at hx
  | cons r rs ih =>
    by_cases hxr : x = r
    · subst hxr
      simp only [dedupByAux, if_neg hns]
      exact List.mem_cons_self x _
    · have hx2 : x ∈ rs := by
        rcases List.mem_cons.mp hx with h | h
        · exact absurd h hxr
        · exact h
      have hfxr : f x ≠ f r :=
        fun h => hxr (huniq r (List.mem_cons_self r rs) h.symm).symm
      by_cases hr : f r ∈ seen
      · simp only [dedupByAux, if_pos hr]
        exact ih hx2 hns (fun y hy => huniq y (List.mem_cons_of_mem r hy))
      · simp only [dedupByAux, if_neg hr, List.mem_cons]
        refine Or.inr (ih hx2 ?_ (fun y hy => huniq y (List.mem_cons_of_mem r hy)))
        simp only [List.mem_cons]
        rintro (heq | hmem)
        · exact hfxr heq
        · exact hns hmem

theorem mem_dedupBy_of_unique_key {α κ : Type} (f : α → κ) [DecidableEq κ]
    {l : List α} {x : α} (hx : x ∈ l) (huniq : ∀ y ∈ l, f y = f x → y = x) :
    x ∈ dedupBy f l :=
  mem_dedupByAux_of_unique_key f hx (List.not_mem_nil (f x)) huniq

theorem find?_dedupByAux_key {α κ : Type} (f : α → κ) [DecidableEq κ] {seen : List κ}
    (l : List α) (t : κ) (hts : t ∉ seen) :
    (dedupByAux f seen l).find? (fun x => decide (f x = t))
      = l.find? (fun x => decide (f x = t)) := by
  induction l generalizing seen with
  | nil => rfl
  | cons r rs ih =>
    by_cases hr : f r ∈ seen
    · have hne : ¬ (f r = t) := fun h => hts (h ▸ hr)
      simp only [dedupByAux, if_pos hr]
      rw [List.find?_cons_of_neg _ (by simp [hne])]
      exact ih hts
    · by_cases heq : f r = t
      · simp only [dedupByAux, if_neg hr]
        rw [List.find?_cons_of_pos _ (by simp [heq]), List.find?_cons_of_pos _ (by simp [heq])]
      · simp only [dedupByAux, if_neg hr]
        rw [List.find?_cons_of_neg _ (by simp [heq]), List.find?_cons_of_neg _ (by simp [heq])]
        refine ih ?_
        simp only [List.mem_cons]
        rintro (h | h)
        · exact heq h.symm
        · exact hts h

theorem find?_dedupBy_key {α κ : Type} (f : α → κ) [DecidableEq κ] (l : List α) (t : κ) :
    (dedupBy f l).find? (fun x => decide (f x = t)) = l.find? (fun x => decide (f x = t)) :=
  find?_dedupByAux_key f l t (List.not_mem_nil t)

theorem sortByTs_perm {α : Type} (dtOf : α → Option Int) (l : List α) :
    List.Perm (sortByTs dtOf l) l :=
  List.perm_insertionSort (byTs dtOf) l

theorem sortByTs_sorted {α : Type} (dtOf : α → Option Int) (l : List α) :
    List.Sorted (byTs dtOf) (sortByTs dtOf l) :=
  List.sorted_insertionSort (byTs dtOf) l

theorem sortByTs_eq_of_sorted {α : Type} (dtOf : α → Option Int) {l : List α}
    (h : List.Sorted (byTs dtOf) l) : sortByTs dtOf l = l :=
  List.Sorted.insertionSort_eq h

theorem map_eq_self_of_mem {α : Type} {l : List α} {g : α → α}
    (h : ∀ x ∈ l, g x = x) : l.map g = l := by
  induction l with
  | nil => rfl
  | cons a l ih =>
    rw [List.map_cons, h a (List.mem_cons_self a l), ih (fun x hx => h x (List.mem_cons_of_mem a hx))]

theorem find?_eq_head?_of_all {α : Type} (p : α → Bool) {l : List α}
    (h : ∀ x ∈ l, p x = true) : l.find? p = l.head? := by
  cases l with
  | nil => rfl
  | cons a as => simp [List.find?, h a (List.mem_cons_self a as)]

theorem head?_filter_eq_find? {α : Type} (p : α → Bool) (l : List α) :
    (l.filter p).head? = l.find? p := by
  induction l with
  | nil => rfl
  | cons a l ih =>
    by_cases h : p a
    · rw [List.filter_cons_of_pos h, List.find?_cons_of_pos _ h]
      rfl
    · rw [List.filter_cons_of_neg h, List.find?_cons_of_neg _ h, ih]

theorem find?_flatMap_blocks {β γ : Type} (p : γ → Bool) (q : β → Bool) (f : β → List γ)
    (l : List β) (hne : ∀ b, f b ≠ []) (hcong : ∀ b, ∀ x ∈ f b, p x = q b) :
    (l.flatMap f).find? p = (l.find? q).bind (fun b => (f b).head?) := by
  induction l with
  | nil => rfl
  | cons a l ih =>
    rw [List.flatMap_cons, List.find?_append]
    by_cases h : q a
    · have h1 : (f a).find? p = (f a).head? :=
        find?_eq_head?_of_all p (fun x hx => (hcong a x hx).trans h)
      rw [List.find?_cons_of_pos _ h, h1]
      cases hfa : f a with
      | nil => exact absurd hfa (hne a)
      | cons y ys => simp [hfa]
    · have h0 : (f a).find? p = none := by
        refine List.find?_eq_none.mpr (fun x hx => ?_)
        rw [hcong a x hx]
        exact h
      rw [h0, List.find?_cons_of_neg _ h, ih]
      rfl

theorem find?_eq_some_of_mem_unique {α : Type} (p : α → Bool) {l : List α} {x : α}
    (hx : x ∈ l) (hpx : p x = true) (huniq : ∀ y ∈ l, p y = true → y = x) :
    l.find? p = some x := by
  induction l with
  | nil => simp at hx
  | cons a l ih =>
    by_cases h : p a
    · rw [List.find?_cons_of_pos _ h, huniq a (List.mem_cons_self a l) h]
    · rcases List.mem_cons.mp hx with rfl | hx
      · exact absurd hpx h
      · rw [List.find?_cons_of_neg _ h]
        exact ih hx (fun y hy => huniq y (List.mem_cons_of_mem a hy))

theorem nodup_keys_of_perm {α κ : Type} (f : α → κ) {l₁ l₂ : List α} (h : List.Perm l₁ l₂)
    (hnd : (l₂.map f).Nodup) : (l₁.map f).Nodup :=
  ((h.map f).nodup_iff).mpr hnd

/- ===================================================================
   C1: idempotence of the per-path archive updates (spec section 4.4).
   =================================================================== -/

theorem purpleairDailyAppend_length_le {α : Type} (B : List (List α)) (A : List α) :
    A.length ≤ (purpleairDailyAppend A B).length := by
  induction B generalizing A with
  | nil => exact Nat.le_refl _
  | cons b bs ih =>
    by_cases hb : b.isEmpty
    · simpa [purpleairDailyAppend, List.foldl_cons, hb] using ih A
    · refine Nat.le_trans ?_ (by simpa [purpleairDailyAppend, List.foldl_cons, hb] using ih (A ++ b))
      simp [List.length_append]

theorem purpleairDailyAppend_length_lt {α : Type} (B : List (List α)) (A : List α)
    (b0 : List α) (hb0 : b0 ∈ B) (hne : b0 ≠ []) :
    A.length < (purpleairDailyAppend A B).length := by
  induction B generalizing A with
  | nil => simp at hb0
  | cons b bs ih =>
    rcases List.mem_cons.mp hb0 with rfl | hmem
    · have hbe : b0.isEmpty = false := by
        cases b0 with
        | nil => exact absurd rfl hne
        | cons x xs => rfl
      refine Nat.lt_of_lt_of_le ?_
        (by simpa [purpleairDailyAppend, List.foldl_cons, hbe] using
          purpleairDailyAppend_length_le bs (A ++ b0))
      cases b0 with
      | nil => exact absurd rfl hne
      | cons x xs => simp [List.length_append]
    · by_cases hb : b.isEmpty
      · simpa [purpleairDailyAppend, List.foldl_cons, hb] using ih A hmem
      · refine Nat.lt_of_le_of_lt (Nat.le_add_right A.length b.length) ?_
        simpa [purpleairDailyAppend, List.foldl_cons, hb, List.length_append] using
          ih (A ++ b) hmem

/-- C1 (amended): of the five ingestion paths, only the AQS monthly and
Open-Meteo recent archive updates deduplicate and are idempotent (on the
source identity key plus local timestamp for AQS, and on the timestamp alone
for Open-Meteo); the AirNow daily, PurpleAir daily and HVO hourly paths
append the fetched rows to the archive without any deduplication, so
re-running them with identical inputs enlarges the archive instead of leaving
it unchanged. -/
theorem c1_amended_append_engines :
    (∀ (A B : List AqsApiRow), append_unique (append_unique A B) B = append_unique A B)
    ∧ (∀ (A B : List OmArchiveRow), openmeteoMerge (openmeteoMerge A B) B = openmeteoMerge A B)
    ∧ (∀ (A B : List AirNowRow), B ≠ [] → appendDay (appendDay A B) B ≠ appendDay A B)
    ∧ (∀ (A : List HvoArchiveRow) (r : HvoApiRecord),
        hvoAppend (hvoAppend A r) r ≠ hvoAppend A r)
    ∧ (∀ (A : List PurpleAirRawRow) (B : List (List PurpleAirRawRow)),
        (∃ b ∈ B, b ≠ []) →
        purpleairDailyAppend (purpleairDailyAppend A B) B ≠ purpleairDailyAppend A B) := by
  refine ⟨?_, ?_, ?_, ?_, ?_⟩
  · intro A B
    cases B with
    | nil => simp [append_unique]
    | cons b bs =>
      simp only [append_unique, List.isEmpty_cons, Bool.false_eq_true, if_false]
      exact dedupBy_union_idem _ A (b :: bs)
  · intro A B
    cases B with
    | nil => simp [openmeteoMerge]
    | cons b bs =>
      simp only [openmeteoMerge, List.isEmpty_cons, Bool.false_eq_true, if_false]
      have hperm := sortByTs_perm OmArchiveRow.datetime_utc
        (dedupBy OmArchiveRow.datetime_utc (A ++ (b :: bs)))
      have hnd : ((sortByTs OmArchiveRow.datetime_utc
          (dedupBy OmArchiveRow.datetime_utc (A ++ (b :: bs)))).map
            OmArchiveRow.datetime_utc).Nodup :=
        nodup_keys_of_perm _ hperm (nodup_keys_dedupBy _ _)
      have habs : dedupBy OmArchiveRow.datetime_utc
          (sortByTs OmArchiveRow.datetime_utc
            (dedupBy OmArchiveRow.datetime_utc (A ++ (b :: bs))) ++ (b :: bs))
          = dedupBy OmArchiveRow.datetime_utc
            (sortByTs OmArchiveRow.datetime_utc
              (dedupBy OmArchiveRow.datetime_utc (A ++ (b :: bs)))) := by
        refine dedupBy_append_absorb _ (fun x hx => ?_)
        exact (hperm.map OmArchiveRow.datetime_utc).mem_iff.mpr
          (keys_covered_by_dedupBy _ (List.mem_append_right A hx))
      rw [habs, dedupBy_eq_self _ hnd, sortByTs_eq_of_sorted _ (sortByTs_sorted _ _)]
  · intro A B hB heq
    have hBe : B.isEmpty = false := by
      cases B with
      | nil => exact absurd rfl hB
      | cons x xs => rfl
    have hlen := congrArg List.length heq
    simp only [appendDay, hBe, Bool.false_eq_true, if_false, List.length_append] at hlen
    have hpos : 0 < B.length := by
      cases B with
      | nil => exact absurd rfl hB
      | cons x xs => simp
    omega
  · intro A r heq
    have hlen := congrArg List.length heq
    simp only [hvoAppend, List.length_append, List.length_cons, List.length_nil] at hlen
    omega
  · intro A B hB heq
    rcases hB with ⟨b0, hb0, hne⟩
    have := purpleairDailyAppend_length_lt B (purpleairDailyAppend A B) b0 hb0 hne
    rw [heq] at this
    exact Nat.lt_irrefl _ this

/-- Witness for C1 (amended) at concrete archives and batches: the AQS and
Open-Meteo updates absorb a repeated batch, the other three paths do not. -/
theorem c1_amended_append_engines_witness :
    (append_unique (append_unique [aqsRow1] [aqsRow2]) [aqsRow2]
      = append_unique [aqsRow1] [aqsRow2])
    ∧ (openmeteoMerge (openmeteoMerge [omRow1] [omRow2]) [omRow2]
      = openmeteoMerge [omRow1] [omRow2])
    ∧ (appendDay (appendDay [anRow1] [anRow2]) [anRow2] ≠ appendDay [anRow1] [anRow2])
    ∧ (hvoAppend (hvoAppend [] hvoRec1) hvoRec1 ≠ hvoAppend [] hvoRec1)
    ∧ (purpleairDailyAppend (purpleairDailyAppend [] [[paRow1]]) [[paRow1]]
      ≠ purpleairDailyAppend [] [[paRow1]]) :=
  ⟨c1_amended_append_engines.1 [aqsRow1] [aqsRow2],
   c1_amended_append_engines.2.1 [omRow1] [omRow2],
   c1_amended_append_engines.2.2.1 [anRow1] [anRow2] (by decide),
   c1_amended_append_engines.2.2.2.1 [] hvoRec1,
   c1_amended_append_engines.2.2.2.2 [] [[paRow1]]
     ⟨[paRow1], List.mem_cons_self _ _, by decide⟩⟩

/-- C1 counterexample: the claim asserts idempotence for all five ingestion
paths, but the AirNow daily `_append_day` step is a blind append — replaying
the same one-row batch against the same archive yields a three-row archive
instead of the two-row one. -/
theorem c1_counterexample_airnow_append :
    appendDay (appendDay [anRow1] [anRow2]) [anRow2] = [anRow1, anRow2, anRow2]
    ∧ appendDay [anRow1] [anRow2] = [anRow1, anRow2]
    ∧ ([anRow1, anRow2, anRow2] : List AirNowRow) ≠ [anRow1, anRow2] := by
  refine ⟨by decide, by decide, by decide⟩

/- ===================================================================
   C2: no duplicate (timestamp, identity key) pairs in normalizer output.
   =================================================================== -/

theorem nodup_map_of_nodup_map_inj {α κ₁ κ₂ : Type} {f : α → κ₁} {g : α → κ₂} {e : κ₁ → κ₂}
    (hinj : Function.Injective e) (hcomp : ∀ x, g x = e (f x)) {l : List α}
    (h : (l.map f).Nodup) : (l.map g).Nodup := by
  suffices h2 : ∀ (m : List α), m.map g = (m.map f).map e by
    rw [h2]
    exact h.map hinj
  intro m
  induction m with
  | nil => rfl
  | cons a m ih => simp [hcomp a, ih]

theorem addChangeFlags_base_map {β : Type} (g : HvoCleanBase → β) :
    ∀ (pa pc : Option String) (l : List HvoCleanBase),
    (addChangeFlags pa pc l).map (fun r => g r.toHvoCleanBase) = l.map g := by
  intro pa pc l
  induction l generalizing pa pc with
  | nil => rfl
  | cons r rs ih => simp [addChangeFlags, ih]

/-- C2 (amended): the normalizer output carries no duplicate
(timestamp, identity key) pair for AirNow, PurpleAir, HVO and Open-Meteo;
for AQS the guarantee holds when the parsed GMT timestamps are already
hour-aligned, but not in general, because `clean_aqs` deduplicates on the
pre-floor timestamps and only afterwards floors them to the hour, which can
collapse two distinct timestamps of the same monitor onto the same hour. -/
theorem c2_amended_normalizer_nodup :
    (∀ (parse : String → Option Int) (df : List AirNowRow),
      ((clean_airnow parse df).map airnowPairKey).Nodup)
    ∧ (∀ (fr : PurpleAirFrame) (out : List PurpleAirCleanRow),
        clean_purpleair fr = Except.ok out → (out.map paPairKey).Nodup)
    ∧ (∀ (parse : String → Option Int) (df : List HvoArchiveRow),
        ((clean_hvo parse df).map hvoPairKey).Nodup)
    ∧ (∀ (parseTs parseNum : String → Option Int) (fr : OmFrame) (out : List OmCleanRow),
        clean_openmeteo parseTs parseNum fr = Except.ok out
        → (out.map OmCleanRow.datetime_utc).Nodup)
    ∧ (∀ (parse : String → Option Int) (df : List AqsApiRow),
        (∀ r ∈ df, ∀ t, parse (r.date_gmt ++ " " ++ r.time_gmt) = some t → t % 3600 = 0)
        → ((clean_aqs parse df).map aqsPairKey).Nodup) := by
  refine ⟨?_, ?_, ?_, ?_, ?_⟩
  · intro parse df
    have hnd : ((clean_airnow parse df).map airnowKey).Nodup :=
      nodup_keys_of_perm _ (sortByTs_perm _ _) (nodup_keys_dedupBy _ _)
    refine nodup_map_of_nodup_map_inj
      (e := fun k : String × String × Option Int => (k.2.2, k.1, k.2.1)) ?_ (fun x => rfl) hnd
    intro a b h
    obtain ⟨a1, a2, a3⟩ := a
    obtain ⟨b1, b2, b3⟩ := b
    simp [Prod.ext_iff] at h ⊢
    tauto
  · intro fr out heq
    have hcore : ∀ (tOf : PurpleAirRawRow → Option Int),
        out = sortByTs PurpleAirCleanRow.datetime_utc
          (dedupBy paKey (fr.rows.map (paToClean tOf)))
        → (out.map paPairKey).Nodup := by
      intro tOf hout
      subst hout
      have hnd := nodup_keys_of_perm paKey
        (sortByTs_perm PurpleAirCleanRow.datetime_utc
          (dedupBy paKey (fr.rows.map (paToClean tOf))))
        (nodup_keys_dedupBy paKey (fr.rows.map (paToClean tOf)))
      refine nodup_map_of_nodup_map_inj
        (e := fun k : Int × Option Int => (k.2, k.1)) ?_ (fun x => rfl) hnd
      intro a b h
      obtain ⟨a1, a2⟩ := a
      obtain ⟨b1, b2⟩ := b
      simp [Prod.ext_iff] at h ⊢
      tauto
    by_cases h1 : "time_stamp" ∈ fr.cols
    · rw [clean_purpleair, if_pos h1] at heq
      exact hcore PurpleAirRawRow.time_stamp (Except.ok.inj heq).symm
    · by_cases h2 : "last_seen" ∈ fr.cols
      · rw [clean_purpleair, if_neg h1, if_pos h2] at heq
        exact hcore PurpleAirRawRow.last_seen (Except.ok.inj heq).symm
      · rw [clean_purpleair, if_neg h1, if_neg h2] at heq
        exact absurd heq (by simp)
  · intro parse df
    have hnid : ((sortByTs HvoCleanBase.datetime_utc
        (dedupBy HvoCleanBase.noticeId (df.map (hvoToCleanBase parse)))).map
          HvoCleanBase.noticeId).Nodup :=
      nodup_keys_of_perm _ (sortByTs_perm _ _) (nodup_keys_dedupBy _ _)
    have hpair : (clean_hvo parse df).map hvoPairKey
        = (sortByTs HvoCleanBase.datetime_utc
            (dedupBy HvoCleanBase.noticeId (df.map (hvoToCleanBase parse)))).map
              (fun b => (b.datetime_utc, b.noticeId)) :=
      addChangeFlags_base_map (fun b => (b.datetime_utc, b.noticeId)) none none _
    rw [hpair]
    have hsnd : ((sortByTs HvoCleanBase.datetime_utc
        (dedupBy HvoCleanBase.noticeId (df.map (hvoToCleanBase parse)))).map
          (fun b => (b.datetime_utc, b.noticeId))).map Prod.snd
        = (sortByTs HvoCleanBase.datetime_utc
            (dedupBy HvoCleanBase.noticeId (df.map (hvoToCleanBase parse)))).map
              HvoCleanBase.noticeId := by
      rw [List.map_map]
      rfl
    exact List.Nodup.of_map Prod.snd (by rw [hsnd]; exact hnid)
  · intro parseTs parseNum fr out heq
    by_cases h1 : "datetime_utc" ∈ fr.cols
    · rw [clean_openmeteo, if_pos h1] at heq
      have hout := (Except.ok.inj heq).symm
      subst hout
      exact nodup_keys_of_perm _ (sortByTs_perm _ _) (nodup_keys_dedupBy _ _)
    · rw [clean_openmeteo, if_neg h1] at heq
      exact absurd heq (by simp)
  · intro parse df haligned
    have hfix : ∀ r ∈ sortByTs AqsCleanRow.datetime_utc
        (dedupBy aqsCleanKey (aqsWithTs parse df)),
        ({ r with datetime_utc := r.datetime_utc.map floorHour } : AqsCleanRow) = r := by
      intro r hr
      have hr2 : r ∈ aqsWithTs parse df :=
        mem_of_mem_dedupByAux aqsCleanKey ((sortByTs_perm _ _).mem_iff.mp hr)
      rcases List.mem_map.mp hr2 with ⟨raw, hraw, hconv⟩
      have hdt : r.datetime_utc.map floorHour = r.datetime_utc := by
        have : r.datetime_utc = parse (raw.date_gmt ++ " " ++ raw.time_gmt) := by
          rw [← hconv]
        rw [this]
        cases hp : parse (raw.date_gmt ++ " " ++ raw.time_gmt) with
        | none => rfl
        | some t =>
          have := haligned raw hraw t hp
          simp [floorHour]
          omega
      rw [hdt]
    rw [clean_aqs, map_eq_self_of_mem hfix]
    have hnd : ((sortByTs AqsCleanRow.datetime_utc
        (dedupBy aqsCleanKey (aqsWithTs parse df))).map aqsCleanKey).Nodup :=
      nodup_keys_of_perm _ (sortByTs_perm _ _) (nodup_keys_dedupBy _ _)
    refine nodup_map_of_nodup_map_inj
      (e := fun k : String × String × String × Option Int × String =>
        (k.2.2.2.1, k.1, k.2.1, k.2.2.1, k.2.2.2.2)) ?_ (fun x => rfl) hnd
    intro a b h
    obtain ⟨a1, a2, a3, a4, a5⟩ := a
    obtain ⟨b1, b2, b3, b4, b5⟩ := b
    simp [Prod.ext_iff] at h ⊢
    tauto

/-- Witness for C2 (amended) at concrete frames for all five normalizers,
with an hour-aligned parse table for AQS. -/
theorem c2_amended_normalizer_nodup_witness :
    ((clean_airnow anParse [anRow1, anRow2, anRowBad]).map airnowPairKey).Nodup
    ∧ (([paToClean PurpleAirRawRow.time_stamp paRow1] : List PurpleAirCleanRow).map
        paPairKey).Nodup
    ∧ ((clean_hvo hvoParse hvoExampleDf).map hvoPairKey).Nodup
    ∧ (([omCleanRain, omCleanBadTemp] : List OmCleanRow).map OmCleanRow.datetime_utc).Nodup
    ∧ ((clean_aqs aqsParseAligned [aqsRow1]).map aqsPairKey).Nodup :=
  ⟨c2_amended_normalizer_nodup.1 anParse [anRow1, anRow2, anRowBad],
   c2_amended_normalizer_nodup.2.1 paFrameBoth [paToClean PurpleAirRawRow.time_stamp paRow1]
     (by rfl),
   c2_amended_normalizer_nodup.2.2.1 hvoParse hvoExampleDf,
   c2_amended_normalizer_nodup.2.2.2.1 omParseTs omParseNum omExampleFrame
     [omCleanRain, omCleanBadTemp] (by rfl),
   c2_amended_normalizer_nodup.2.2.2.2 aqsParseAligned [aqsRow1]
     (by
       intro r hr t ht
       have hr2 := List.mem_singleton.mp hr
       subst hr2
       have hval : aqsParseAligned (aqsRow1.date_gmt ++ " " ++ aqsRow1.time_gmt)
           = some 72000 := by decide
       rw [hval] at ht
       have := Option.some.inj ht
       omega)⟩

/-- C2 counterexample: two AQS rows of the same monitor and parameter at
20:00 and 20:30 GMT both survive the pre-floor deduplication, and the
subsequent floor-to-hour maps both timestamps to 20:00, so `clean_aqs`
returns two rows with an identical (timestamp, identity key) pair. -/
theorem c2_counterexample_aqs_subhour :
    clean_aqs aqsParse [aqsRow1, aqsRow2]
      = [⟨"15", "001", "0007", "88101", Cell.num 5, "V", Cell.na, some 72000⟩,
         ⟨"15", "001", "0007", "88101", Cell.num 6, "None", Cell.na, some 72000⟩]
    ∧ ¬ (((clean_aqs aqsParse [aqsRow1, aqsRow2]).map aqsPairKey).Nodup) :=
  ⟨by decide, by decide⟩

/- ===================================================================
   C9: AirNow rows with unparsable timestamps are kept.
   =================================================================== -/

/-- C9: `clean_airnow` never filters a row for an unparsable (hence null)
timestamp.  First, its output is exactly the duplicate-key filtering of the
timestamp-derivation stage (up to the final sort); second, a row with a null
timestamp whose key triple is unique appears in the output; third, any
stage-row missing from the output is missing only because another output row
carries the same (ReportingArea, ParameterName, datetime_utc) key. -/
theorem c9_airnow_null_ts_rows_survive :
    (∀ (parse : String → Option Int) (df : List AirNowRow),
      List.Perm (clean_airnow parse df) (dedupBy airnowKey (airnowWithTs parse df)))
    ∧ (∀ (parse : String → Option Int) (df : List AirNowRow) (r : AirNowCleanRow),
        r ∈ airnowWithTs parse df → r.datetime_utc = none
        → (∀ y ∈ airnowWithTs parse df, airnowKey y = airnowKey r → y = r)
        → r ∈ clean_airnow parse df)
    ∧ (∀ (parse : String → Option Int) (df : List AirNowRow) (r : AirNowCleanRow),
        r ∈ airnowWithTs parse df → r ∉ clean_airnow parse df
        → ∃ y, y ∈ clean_airnow parse df ∧ airnowKey y = airnowKey r ∧ y ≠ r) := by
  refine ⟨?_, ?_, ?_⟩
  · intro parse df
    exact sortByTs_perm _ _
  · intro parse df r hr _ huniq
    exact (sortByTs_perm _ _).mem_iff.mpr (mem_dedupBy_of_unique_key _ hr huniq)
  · intro parse df r hr hnot
    have hkey := keys_covered_by_dedupBy airnowKey hr
    rcases List.mem_map.mp hkey with ⟨y, hy, hfy⟩
    refine ⟨y, (sortByTs_perm _ _).mem_iff.mpr hy, hfy, ?_⟩
    intro hyr
    exact hnot (hyr ▸ (sortByTs_perm _ _).mem_iff.mpr hy)

/-- Witness for C9: the row whose observation date "BAD" cannot be parsed is
present in the cleaned output with a null timestamp. -/
theorem c9_airnow_null_ts_rows_survive_witness :
    (⟨"Kona", Cell.na, Cell.na, Cell.na, "PM2.5", Cell.num 32, Cell.na, none⟩ : AirNowCleanRow)
      ∈ clean_airnow anParse [anRow1, anRowBad] :=
  c9_airnow_null_ts_rows_survive.2.1 anParse [anRow1, anRowBad] _
    (by decide) (by decide) (by decide)

/- ===================================================================
   C6: HVO change-flag correctness.
   =================================================================== -/

theorem addChangeFlags_alert_map :
    ∀ (pa pc : Option String) (l : List HvoCleanBase),
    (addChangeFlags pa pc l).map HvoCleanRow.alert_change
      = List.zipWith pandasNe (l.map HvoCleanBase.alertLevel)
          (pa :: l.map HvoCleanBase.alertLevel) := by
  intro pa pc l
  induction l generalizing pa pc with
  | nil => rfl
  | cons r rs ih => simp [addChangeFlags, List.zipWith, ih]

theorem addChangeFlags_color_map :
    ∀ (pa pc : Option String) (l : List HvoCleanBase),
    (addChangeFlags pa pc l).map HvoCleanRow.color_change
      = List.zipWith pandasNe (l.map HvoCleanBase.colorCode)
          (pc :: l.map HvoCleanBase.colorCode) := by
  intro pa pc l
  induction l generalizing pa pc with
  | nil => rfl
  | cons r rs ih => simp [addChangeFlags, List.zipWith, ih]

/-- C6: in the deduplicated, time-sorted output of `clean_hvo`, the
`alert_change` column is exactly the elementwise pandas `ne` of the
`alertLevel` column against its one-step shift (the predecessor of the first
row being missing), and likewise `color_change` against `colorCode`; on
present values that `ne` is value inequality and against the missing
predecessor it is true, so the alert sequence L1, L1, L2, L2, L3 yields the
flags [true, false, true, false, true]. -/
theorem c6_hvo_change_flags :
    (∀ (parse : String → Option Int) (df : List HvoArchiveRow),
      (clean_hvo parse df).map HvoCleanRow.alert_change
        = List.zipWith pandasNe ((clean_hvo parse df).map (fun r => r.alertLevel))
            (none :: (clean_hvo parse df).map (fun r => r.alertLevel))
      ∧ (clean_hvo parse df).map HvoCleanRow.color_change
        = List.zipWith pandasNe ((clean_hvo parse df).map (fun r => r.colorCode))
            (none :: (clean_hvo parse df).map (fun r => r.colorCode)))
    ∧ (∀ (x y : String), pandasNe (some x) (some y) = decide (x ≠ y))
    ∧ (∀ (x : Option String), pandasNe x none = true)
    ∧ ((clean_hvo hvoParse hvoExampleDf).map HvoCleanRow.alert_change
        = [true, false, true, false, true]) := by
  refine ⟨?_, fun x y => rfl, ?_, by decide⟩
  · intro parse df
    have hlvl : (clean_hvo parse df).map (fun r => r.alertLevel)
        = (sortByTs HvoCleanBase.datetime_utc
            (dedupBy HvoCleanBase.noticeId (df.map (hvoToCleanBase parse)))).map
              HvoCleanBase.alertLevel :=
      addChangeFlags_base_map HvoCleanBase.alertLevel none none _
    have hcol : (clean_hvo parse df).map (fun r => r.colorCode)
        = (sortByTs HvoCleanBase.datetime_utc
            (dedupBy HvoCleanBase.noticeId (df.map (hvoToCleanBase parse)))).map
              HvoCleanBase.colorCode :=
      addChangeFlags_base_map HvoCleanBase.colorCode none none _
    constructor
    · rw [hlvl]
      exact addChangeFlags_alert_map none none _
    · rw [hcol]
      exact addChangeFlags_color_map none none _
  · intro x
    cases x with
    | none => rfl
    | some v => rfl

/- ===================================================================
   C7: Open-Meteo drop rule.
   =================================================================== -/

theorem any_not_eq_not_all {α : Type} (p : α → Bool) (L : List α) :
    L.any (fun c => ! p c) = ! L.all p := by
  induction L with
  | nil => rfl
  | cons a L ih => simp [List.any_cons, List.all_cons, ih, Bool.not_and]

theorem omRowKeep_eq_not_allCoreNa (cols : List String) (r : OmCleanRow) :
    omRowKeep cols r = ! allCoreNa cols r :=
  any_not_eq_not_all (fun c => (omGetField r c).isna) _

/-- C7: the `dropna` step of `clean_openmeteo` drops a row exactly when every
core weather column present in the frame is simultaneously missing: the keep
condition is the negation of `allCoreNa`; no surviving output row has all
present core columns missing; a coerced row with some present core value
reaches the output (with its timestamp); and on the sample frame the row
missing only `rain` and the row whose temperature string fails numeric
parsing are retained, while the all-core-missing row is dropped. -/
theorem c7_openmeteo_drop_rule :
    (∀ (cols : List String) (r : OmCleanRow), omRowKeep cols r = ! allCoreNa cols r)
    ∧ (∀ (parseTs parseNum : String → Option Int) (fr : OmFrame) (out : List OmCleanRow),
        clean_openmeteo parseTs parseNum fr = Except.ok out
        → ∀ r ∈ out, allCoreNa fr.cols r = false)
    ∧ (∀ (parseTs parseNum : String → Option Int) (fr : OmFrame) (out : List OmCleanRow),
        clean_openmeteo parseTs parseNum fr = Except.ok out
        → ∀ r ∈ omCoerced parseTs parseNum fr, allCoreNa fr.cols r = false
        → ∃ r2 ∈ out, r2.datetime_utc = r.datetime_utc)
    ∧ (clean_openmeteo omParseTs omParseNum omExampleFrame
        = Except.ok [omCleanRain, omCleanBadTemp])
    ∧ (allCoreNa omExampleFrame.cols
        (omCoerceRow omParseTs omParseNum omExampleFrame.cols omRawCoreNa) = true) := by
  refine ⟨?_, ?_, ?_, by rfl, by decide⟩
  · intro cols r
    exact any_not_eq_not_all (fun c => (omGetField r c).isna) _
  · intro parseTs parseNum fr out heq r hr
    by_cases h1 : "datetime_utc" ∈ fr.cols
    · rw [clean_openmeteo, if_pos h1] at heq
      have hout := (Except.ok.inj heq).symm
      subst hout
      have hr2 : r ∈ (omCoerced parseTs parseNum fr).filter (omRowKeep fr.cols) :=
        mem_of_mem_dedupByAux _ ((sortByTs_perm _ _).mem_iff.mp hr)
      have hkeep := (List.mem_filter.mp hr2).2
      rw [omRowKeep_eq_not_allCoreNa] at hkeep
      simpa using hkeep
    · rw [clean_openmeteo, if_neg h1] at heq
      exact absurd heq (by simp)
  · intro parseTs parseNum fr out heq r hr hna
    by_cases h1 : "datetime_utc" ∈ fr.cols
    · rw [clean_openmeteo, if_pos h1] at heq
      have hout := (Except.ok.inj heq).symm
      subst hout
      have hkeep : omRowKeep fr.cols r = true := by
        rw [omRowKeep_eq_not_allCoreNa, hna]
        rfl
      have hfil : r ∈ (omCoerced parseTs parseNum fr).filter (omRowKeep fr.cols) :=
        List.mem_filter.mpr ⟨hr, hkeep⟩
      have hcov := keys_covered_by_dedupBy OmCleanRow.datetime_utc hfil
      rcases List.mem_map.mp hcov with ⟨r2, hr2, hdt⟩
      exact ⟨r2, (sortByTs_perm _ _).mem_iff.mpr hr2, hdt⟩
    · rw [clean_openmeteo, if_neg h1] at heq
      exact absurd heq (by simp)

/-- Witness for C7 at the sample frame: the retained rain-missing row has a
present core value, and its timestamp survives to the output. -/
theorem c7_openmeteo_drop_rule_witness :
    allCoreNa omExampleFrame.cols omCleanRain = false
    ∧ (∃ r2 ∈ [omCleanRain, omCleanBadTemp], r2.datetime_utc
        = (omCoerceRow omParseTs omParseNum omExampleFrame.cols omRawRain).datetime_utc) :=
  ⟨c7_openmeteo_drop_rule.2.1 omParseTs omParseNum omExampleFrame
      [omCleanRain, omCleanBadTemp] (by rfl) omCleanRain (List.mem_cons_self _ _),
   c7_openmeteo_drop_rule.2.2.1 omParseTs omParseNum omExampleFrame
      [omCleanRain, omCleanBadTemp] (by rfl)
      (omCoerceRow omParseTs omParseNum omExampleFrame.cols omRawRain)
      (by decide) (by decide)⟩

/- ===================================================================
   C8: PurpleAir time-source selection and failure.
   =================================================================== -/

/-- C8: `clean_purpleair` succeeds exactly when a `time_stamp` or `last_seen`
column is present and raises the validation error otherwise; when
`time_stamp` is present it wins regardless of `last_seen`, and every output
row is the cleaning of an input row with `datetime_utc` derived from the
chosen epoch-seconds column, converted and floored to the hour. -/
theorem c8_purpleair_time_source :
    (∀ (fr : PurpleAirFrame),
      ("time_stamp" ∈ fr.cols ∨ "last_seen" ∈ fr.cols) ↔
        ∃ out, clean_purpleair fr = Except.ok out)
    ∧ (∀ (fr : PurpleAirFrame), "time_stamp" ∉ fr.cols → "last_seen" ∉ fr.cols →
        clean_purpleair fr
          = Except.error "Expected a time_stamp or last_seen column in the data.")
    ∧ (∀ (fr : PurpleAirFrame) (out : List PurpleAirCleanRow), "time_stamp" ∈ fr.cols →
        clean_purpleair fr = Except.ok out →
        ∀ r2 ∈ out, ∃ r ∈ fr.rows, r2 = paToClean PurpleAirRawRow.time_stamp r
          ∧ r2.datetime_utc = r.time_stamp.map floorHour)
    ∧ (∀ (fr : PurpleAirFrame) (out : List PurpleAirCleanRow), "time_stamp" ∉ fr.cols →
        "last_seen" ∈ fr.cols → clean_purpleair fr = Except.ok out →
        ∀ r2 ∈ out, ∃ r ∈ fr.rows, r2 = paToClean PurpleAirRawRow.last_seen r
          ∧ r2.datetime_utc = r.last_seen.map floorHour) := by
  refine ⟨?_, ?_, ?_, ?_⟩
  · intro fr
    constructor
    · intro h
      by_cases h1 : "time_stamp" ∈ fr.cols
      · exact ⟨_, by rw [clean_purpleair, if_pos h1]⟩
      · rcases h with h | h2
        · exact absurd h h1
        · exact ⟨_, by rw [clean_purpleair, if_neg h1, if_pos h2]⟩
    · rintro ⟨out, heq⟩
      by_cases h1 : "time_stamp" ∈ fr.cols
      · exact Or.inl h1
      · by_cases h2 : "last_seen" ∈ fr.cols
        · exact Or.inr h2
        · rw [clean_purpleair, if_neg h1, if_neg h2] at heq
          exact absurd heq (by simp)
  · intro fr h1 h2
    rw [clean_purpleair, if_neg h1, if_neg h2]
  · intro fr out h1 heq r2 hr2
    rw [clean_purpleair, if_pos h1] at heq
    have hout := (Except.ok.inj heq).symm
    subst hout
    have hmem : r2 ∈ fr.rows.map (paToClean PurpleAirRawRow.time_stamp) :=
      mem_of_mem_dedupByAux _ ((sortByTs_perm _ _).mem_iff.mp hr2)
    rcases List.mem_map.mp hmem with ⟨r, hr, hconv⟩
    refine ⟨r, hr, hconv.symm, ?_⟩
    rw [← hconv]
    rfl
  · intro fr out h1 h2 heq r2 hr2
    rw [clean_purpleair, if_neg h1, if_pos h2] at heq
    have hout := (Except.ok.inj heq).symm
    subst hout
    have hmem : r2 ∈ fr.rows.map (paToClean PurpleAirRawRow.last_seen) :=
      mem_of_mem_dedupByAux _ ((sortByTs_perm _ _).mem_iff.mp hr2)
    rcases List.mem_map.mp hmem with ⟨r, hr, hconv⟩
    refine ⟨r, hr, hconv.symm, ?_⟩
    rw [← hconv]
    rfl

/-- Witness for C8 at the sample frames: a frame with both time columns
succeeds using `time_stamp`, and a frame with neither raises the validation
error. -/
theorem c8_purpleair_time_source_witness :
    (∃ out, clean_purpleair paFrameBoth = Except.ok out)
    ∧ clean_purpleair paFrameNone
        = Except.error "Expected a time_stamp or last_seen column in the data."
    ∧ (∃ r ∈ paFrameBoth.rows, paToClean PurpleAirRawRow.time_stamp paRow1
        = paToClean PurpleAirRawRow.time_stamp r
        ∧ (paToClean PurpleAirRawRow.time_stamp paRow1).datetime_utc
          = r.time_stamp.map floorHour) :=
  ⟨(c8_purpleair_time_source.1 paFrameBoth).mp (Or.inl (by decide)),
   c8_purpleair_time_source.2.1 paFrameNone (by decide) (by decide),
   c8_purpleair_time_source.2.2.1 paFrameBoth
     [paToClean PurpleAirRawRow.time_stamp paRow1] (by decide) (by rfl)
     (paToClean PurpleAirRawRow.time_stamp paRow1) (List.mem_singleton.mpr rfl)⟩

/- ===================================================================
   Grid-builder lemmas: hourRange, colMin / colMax, pyMin / pyMax.
   =================================================================== -/

theorem range_head?_of_pos {n : Nat} (h : 0 < n) : (List.range n).head? = some 0 := by
  cases hr : List.range n with
  | nil =>
    have hlen := List.length_range n
    rw [hr] at hlen
    simp at hlen
    omega
  | cons a rest =>
    have h0 : (List.range n)[0]? = some 0 := by
      rw [List.getElem?_eq_getElem (by simpa [List.length_range] using h)]
      simp [List.getElem_range]
    rw [hr] at h0
    simp at h0
    rw [h0]
    rfl

theorem hourRange_length (s e : Int) (h : s ≤ e) :
    (hourRange s e).length = ((e - s) / 3600).toNat + 1 := by
  unfold hourRange
  rw [if_pos h]
  simp

theorem hourRange_get (s e : Int) (h : s ≤ e) (i : Nat)
    (hi : i < (hourRange s e).length) :
    (hourRange s e).get ⟨i, hi⟩ = s + 3600 * i := by
  simp only [List.get_eq_getElem]
  simp only [hourRange, if_pos h] at hi ⊢
  rw [List.getElem_map, List.getElem_range]

theorem hourRange_pairwise_lt (s e : Int) : (hourRange s e).Pairwise (· < ·) := by
  unfold hourRange
  by_cases h : s ≤ e
  · rw [if_pos h]
    refine List.pairwise_map.mpr ?_
    refine (List.pairwise_lt_range _).imp ?_
    intro a b hab
    omega
  · rw [if_neg h]
    exact List.Pairwise.nil

theorem mem_hourRange {s e t : Int} :
    t ∈ hourRange s e ↔ s ≤ t ∧ t ≤ e ∧ (t - s) % 3600 = 0 := by
  unfold hourRange
  by_cases h : s ≤ e
  · rw [if_pos h]
    simp only [List.mem_map, List.mem_range]
    constructor
    · rintro ⟨k, hk, rfl⟩
      omega
    · rintro ⟨h1, h2, h3⟩
      exact ⟨((t - s) / 3600).toNat, by omega, by omega⟩
  · rw [if_neg h]
    simp only [List.not_mem_nil, false_iff]
    intro hc
    exact h (le_trans hc.1 hc.2.1)

theorem hourRange_head? (s e : Int) (h : s ≤ e) : (hourRange s e).head? = some s := by
  unfold hourRange
  rw [if_pos h, List.head?_map, range_head?_of_pos (by omega)]
  simp

theorem hourRange_getLast? (s e : Int) (h : s ≤ e) (hal : (e - s) % 3600 = 0) :
    (hourRange s e).getLast? = some e := by
  unfold hourRange
  rw [if_pos h, List.range_succ, List.map_append]
  simp only [List.map_cons, List.map_nil]
  rw [List.getLast?_concat]
  simp only [Option.some.injEq]
  omega

theorem foldl_min_spec (xs : List Int) : ∀ (x : Int),
    (xs.foldl min x = x ∨ xs.foldl min x ∈ xs)
    ∧ xs.foldl min x ≤ x ∧ (∀ y ∈ xs, xs.foldl min x ≤ y) := by
  induction xs with
  | nil => exact fun x => ⟨Or.inl rfl, le_refl x, by simp⟩
  | cons a as ih =>
    intro x
    obtain ⟨hmem, hle, hall⟩ := ih (min x a)
    rw [List.foldl_cons]
    refine ⟨?_, le_trans hle (min_le_left x a), ?_⟩
    · rcases hmem with h | h
      · rcases min_choice x a with hc | hc
        · exact Or.inl (by rw [h, hc])
        · exact Or.inr (by rw [h, hc]; exact List.mem_cons_self a as)
      · exact Or.inr (List.mem_cons_of_mem a h)
    · intro y hy
      rcases List.mem_cons.mp hy with rfl | hy2
      · exact le_trans hle (min_le_right x y)
      · exact hall y hy2

theorem foldl_max_spec (xs : List Int) : ∀ (x : Int),
    (xs.foldl max x = x ∨ xs.foldl max x ∈ xs)
    ∧ x ≤ xs.foldl max x ∧ (∀ y ∈ xs, y ≤ xs.foldl max x) := by
  induction xs with
  | nil => exact fun x => ⟨Or.inl rfl, le_refl x, by simp⟩
  | cons a as ih =>
    intro x
    obtain ⟨hmem, hle, hall⟩ := ih (max x a)
    rw [List.foldl_cons]
    refine ⟨?_, le_trans (le_max_left x a) hle, ?_⟩
    · rcases hmem with h | h
      · rcases max_choice x a with hc | hc
        · exact Or.inl (by rw [h, hc])
        · exact Or.inr (by rw [h, hc]; exact List.mem_cons_self a as)
      · exact Or.inr (List.mem_cons_of_mem a h)
    · intro y hy
      rcases List.mem_cons.mp hy with rfl | hy2
      · exact le_trans (le_max_right x y) hle
      · exact hall y hy2

theorem colMin_spec {col : List (Option Int)} {v : Int} (h : colMin col = some v) :
    some v ∈ col ∧ ∀ x : Int, some x ∈ col → v ≤ x := by
  unfold colMin at h
  cases hfm : col.filterMap id with
  | nil =>
    rw [hfm] at h
    exact absurd h (by simp)
  | cons x xs =>
    rw [hfm] at h
    have hv : v = xs.foldl min x := (Option.some.inj h).symm
    have hmm := foldl_min_spec xs x
    have hmem : v ∈ x :: xs := by
      rcases hmm.1 with h1 | h1
      · rw [hv, h1]
        exact List.mem_cons_self x xs
      · rw [hv]
        exact List.mem_cons_of_mem x h1
    constructor
    · have hin : v ∈ col.filterMap id := by
        rw [hfm]
        exact hmem
      rcases List.mem_filterMap.mp hin with ⟨a, ha, hav⟩
      have : a = some v := hav
      rw [← this]
      exact ha
    · intro y hy
      have hin : y ∈ col.filterMap id := List.mem_filterMap.mpr ⟨some y, hy, rfl⟩
      rw [hfm] at hin
      rcases List.mem_cons.mp hin with rfl | hy2
      · exact hv ▸ hmm.2.1
      · exact hv ▸ hmm.2.2 y hy2

theorem colMax_spec {col : List (Option Int)} {v : Int} (h : colMax col = some v) :
    some v ∈ col ∧ ∀ x : Int, some x ∈ col → x ≤ v := by
  unfold colMax at h
  cases hfm : col.filterMap id with
  | nil =>
    rw [hfm] at h
    exact absurd h (by simp)
  | cons x xs =>
    rw [hfm] at h
    have hv : v = xs.foldl max x := (Option.some.inj h).symm
    have hmm := foldl_max_spec xs x
    have hmem : v ∈ x :: xs := by
      rcases hmm.1 with h1 | h1
      · rw [hv, h1]
        exact List.mem_cons_self x xs
      · rw [hv]
        exact List.mem_cons_of_mem x h1
    constructor
    · have hin : v ∈ col.filterMap id := by
        rw [hfm]
        exact hmem
      rcases List.mem_filterMap.mp hin with ⟨a, ha, hav⟩
      have : a = some v := hav
      rw [← this]
      exact ha
    · intro y hy
      have hin : y ∈ col.filterMap id := List.mem_filterMap.mpr ⟨some y, hy, rfl⟩
      rw [hfm] at hin
      rcases List.mem_cons.mp hin with rfl | hy2
      · exact hv ▸ hmm.2.1
      · exact hv ▸ hmm.2.2 y hy2

theorem colMin_isSome {col : List (Option Int)} (hne : col ≠ [])
    (hall : ∀ x ∈ col, x ≠ none) : ∃ v, colMin col = some v := by
  cases col with
  | nil => exact absurd rfl hne
  | cons c cs =>
    cases c with
    | none => exact absurd rfl (hall none (List.mem_cons_self _ _))
    | some y =>
      refine ⟨(cs.filterMap id).foldl min y, ?_⟩
      unfold colMin
      simp [List.filterMap_cons]

theorem colMax_isSome {col : List (Option Int)} (hne : col ≠ [])
    (hall : ∀ x ∈ col, x ≠ none) : ∃ v, colMax col = some v := by
  cases col with
  | nil => exact absurd rfl hne
  | cons c cs =>
    cases c with
    | none => exact absurd rfl (hall none (List.mem_cons_self _ _))
    | some y =>
      refine ⟨(cs.filterMap id).foldl max y, ?_⟩
      unfold colMax
      simp [List.filterMap_cons]

theorem pyMinFold_spec (rest : List (Option Int)) :
    ∀ (a : Int), (∀ x ∈ rest, x ≠ none) →
    ∃ v, rest.foldl (fun acc y => if pyLt y acc then y else acc) (some a) = some v
      ∧ (v = a ∨ some v ∈ rest) ∧ v ≤ a ∧ (∀ x : Int, some x ∈ rest → v ≤ x) := by
  induction rest with
  | nil => exact fun a _ => ⟨a, rfl, Or.inl rfl, le_refl a, by simp⟩
  | cons c cs ih =>
    intro a hall
    cases c with
    | none => exact absurd rfl (hall none (List.mem_cons_self _ _))
    | some b =>
      have hall2 : ∀ x ∈ cs, x ≠ none := fun x hx => hall x (List.mem_cons_of_mem _ hx)
      by_cases hb : b < a
      · have hstep : pyLt (some b) (some a) = true := by simp [pyLt, hb]
        obtain ⟨v, hv, hmem, hle, hbound⟩ := ih b hall2
        refine ⟨v, ?_, ?_, le_trans hle (le_of_lt hb), ?_⟩
        · rw [List.foldl_cons, if_pos hstep]
          exact hv
        · rcases hmem with rfl | h
          · exact Or.inr (List.mem_cons_self _ _)
          · exact Or.inr (List.mem_cons_of_mem _ h)
        · intro x hx
          rcases List.mem_cons.mp hx with heq | hx2
          · have hxb : x = b := Option.some.inj heq
            rw [hxb]
            exact hle
          · exact hbound x hx2
      · have hstep : pyLt (some b) (some a) = false := by
          simp [pyLt]
          omega
        obtain ⟨v, hv, hmem, hle, hbound⟩ := ih a hall2
        refine ⟨v, ?_, ?_, hle, ?_⟩
        · rw [List.foldl_cons, if_neg (by rw [hstep]; exact Bool.false_ne_true)]
          exact hv
        · rcases hmem with h | h
          · exact Or.inl h
          · exact Or.inr (List.mem_cons_of_mem _ h)
        · intro x hx
          rcases List.mem_cons.mp hx with heq | hx2
          · have hxb : x = b := Option.some.inj heq
            rw [hxb]
            omega
          · exact hbound x hx2

theorem pyMaxFold_spec (rest : List (Option Int)) :
    ∀ (a : Int), (∀ x ∈ rest, x ≠ none) →
    ∃ v, rest.foldl (fun acc y => if pyGt y acc then y else acc) (some a) = some v
      ∧ (v = a ∨ some v ∈ rest) ∧ a ≤ v ∧ (∀ x : Int, some x ∈ rest → x ≤ v) := by
  induction rest with
  | nil => exact fun a _ => ⟨a, rfl, Or.inl rfl, le_refl a, by simp⟩
  | cons c cs ih =>
    intro a hall
    cases c with
    | none => exact absurd rfl (hall none (List.mem_cons_self _ _))
    | some b =>
      have hall2 : ∀ x ∈ cs, x ≠ none := fun x hx => hall x (List.mem_cons_of_mem _ hx)
      by_cases hb : b > a
      · have hstep : pyGt (some b) (some a) = true := by simp [pyGt, hb]
        obtain ⟨v, hv, hmem, hle, hbound⟩ := ih b hall2
        refine ⟨v, ?_, ?_, le_trans (le_of_lt hb) hle, ?_⟩
        · rw [List.foldl_cons, if_pos hstep]
          exact hv
        · rcases hmem with rfl | h
          · exact Or.inr (List.mem_cons_self _ _)
          · exact Or.inr (List.mem_cons_of_mem _ h)
        · intro x hx
          rcases List.mem_cons.mp hx with heq | hx2
          · have hxb : x = b := Option.some.inj heq
            rw [hxb]
            exact hle
          · exact hbound x hx2
      · have hstep : pyGt (some b) (some a) = false := by
          simp [pyGt]
          omega
        obtain ⟨v, hv, hmem, hle, hbound⟩ := ih a hall2
        refine ⟨v, ?_, ?_, hle, ?_⟩
        · rw [List.foldl_cons, if_neg (by rw [hstep]; exact Bool.false_ne_true)]
          exact hv
        · rcases hmem with h | h
          · exact Or.inl h
          · exact Or.inr (List.mem_cons_of_mem _ h)
        · intro x hx
          rcases List.mem_cons.mp hx with heq | hx2
          · have hxb : x = b := Option.some.inj heq
            rw [hxb]
            omega
          · exact hbound x hx2

theorem pyMin_spec {ms : List (Option Int)} (hne : ms ≠ []) (hall : ∀ x ∈ ms, x ≠ none) :
    ∃ v, pyMin ms = some v ∧ some v ∈ ms ∧ ∀ x : Int, some x ∈ ms → v ≤ x := by
  cases ms with
  | nil => exact absurd rfl hne
  | cons m rest =>
    cases m with
    | none => exact absurd rfl (hall none (List.mem_cons_self _ _))
    | some a =>
      obtain ⟨v, hv, hmem, hle, hbound⟩ :=
        pyMinFold_spec rest a (fun x hx => hall x (List.mem_cons_of_mem _ hx))
      refine ⟨v, hv, ?_, ?_⟩
      · rcases hmem with rfl | h
        · exact List.mem_cons_self _ _
        · exact List.mem_cons_of_mem _ h
      · intro x hx
        rcases List.mem_cons.mp hx with heq | hx2
        · have hxa : x = a := Option.some.inj heq
          rw [hxa]
          exact hle
        · exact hbound x hx2

theorem pyMax_spec {ms : List (Option Int)} (hne : ms ≠ []) (hall : ∀ x ∈ ms, x ≠ none) :
    ∃ v, pyMax ms = some v ∧ some v ∈ ms ∧ ∀ x : Int, some x ∈ ms → x ≤ v := by
  cases ms with
  | nil => exact absurd rfl hne
  | cons m rest =>
    cases m with
    | none => exact absurd rfl (hall none (List.mem_cons_self _ _))
    | some a =>
      obtain ⟨v, hv, hmem, hle, hbound⟩ :=
        pyMaxFold_spec rest a (fun x hx => hall x (List.mem_cons_of_mem _ hx))
      refine ⟨v, hv, ?_, ?_⟩
      · rcases hmem with rfl | h
        · exact List.mem_cons_self _ _
        · exact List.mem_cons_of_mem _ h
      · intro x hx
        rcases List.mem_cons.mp hx with heq | hx2
        · have hxa : x = a := Option.some.inj heq
          rw [hxa]
          exact hle
        · exact hbound x hx2

/- ===================================================================
   C4: the canonical hourly grid.
   =================================================================== -/

/-- C4 (amended): for non-empty timestamp columns with no missing values,
`build_hourly_index` succeeds and returns the hourly range anchored at the
minimum timestamp: its first element is the minimum over all frames, it is
strictly increasing with entries min + 3600·i (one-hour steps, no gaps), and
an instant belongs to it exactly when it lies between the minimum and the
maximum at an hour-multiple offset from the minimum.  Its last element equals
the maximum timestamp exactly when the span max − min is a whole number of
hours — not in general, as the counterexample shows. -/
theorem c4_amended_build_hourly_index :
    ∀ (cols : List (List (Option Int))), cols ≠ [] → (∀ c ∈ cols, c ≠ []) →
    (∀ c ∈ cols, ∀ x ∈ c, x ≠ none) →
    ∃ mn mx,
      build_hourly_index cols = some (hourRange mn mx)
      ∧ (∃ c ∈ cols, some mn ∈ c) ∧ (∀ c ∈ cols, ∀ x : Int, some x ∈ c → mn ≤ x)
      ∧ (∃ c ∈ cols, some mx ∈ c) ∧ (∀ c ∈ cols, ∀ x : Int, some x ∈ c → x ≤ mx)
      ∧ (hourRange mn mx).head? = some mn
      ∧ (hourRange mn mx).Pairwise (· < ·)
      ∧ (∀ i : Nat, ∀ hi : i < (hourRange mn mx).length,
          (hourRange mn mx).get ⟨i, hi⟩ = mn + 3600 * i)
      ∧ (∀ t : Int, t ∈ hourRange mn mx ↔ mn ≤ t ∧ t ≤ mx ∧ (t - mn) % 3600 = 0)
      ∧ ((mx - mn) % 3600 = 0 → (hourRange mn mx).getLast? = some mx) := by
  intro cols hcne hne hval
  have hminsome : ∀ m ∈ cols.map colMin, m ≠ none := by
    intro m hm
    rcases List.mem_map.mp hm with ⟨c, hc, rfl⟩
    rcases colMin_isSome (hne c hc) (hval c hc) with ⟨v, hv⟩
    rw [hv]
    simp
  have hmaxsome : ∀ m ∈ cols.map colMax, m ≠ none := by
    intro m hm
    rcases List.mem_map.mp hm with ⟨c, hc, rfl⟩
    rcases colMax_isSome (hne c hc) (hval c hc) with ⟨v, hv⟩
    rw [hv]
    simp
  have hmapne : cols.map colMin ≠ [] := by
    cases cols with
    | nil => exact absurd rfl hcne
    | cons c cs => simp
  have hmapne2 : cols.map colMax ≠ [] := by
    cases cols with
    | nil => exact absurd rfl hcne
    | cons c cs => simp
  obtain ⟨mn, hmn, hmnmem, hmnbound⟩ := pyMin_spec hmapne hminsome
  obtain ⟨mx, hmx, hmxmem, hmxbound⟩ := pyMax_spec hmapne2 hmaxsome
  have hmnwit : ∃ c ∈ cols, some mn ∈ c := by
    rcases List.mem_map.mp hmnmem with ⟨c, hc, hceq⟩
    exact ⟨c, hc, (colMin_spec hceq).1⟩
  have hmxwit : ∃ c ∈ cols, some mx ∈ c := by
    rcases List.mem_map.mp hmxmem with ⟨c, hc, hceq⟩
    exact ⟨c, hc, (colMax_spec hceq).1⟩
  have hmnlow : ∀ c ∈ cols, ∀ x : Int, some x ∈ c → mn ≤ x := by
    intro c hc x hx
    rcases colMin_isSome (hne c hc) (hval c hc) with ⟨v, hv⟩
    have h1 : mn ≤ v := hmnbound v (List.mem_map.mpr ⟨c, hc, hv⟩)
    exact le_trans h1 ((colMin_spec hv).2 x hx)
  have hmxhigh : ∀ c ∈ cols, ∀ x : Int, some x ∈ c → x ≤ mx := by
    intro c hc x hx
    rcases colMax_isSome (hne c hc) (hval c hc) with ⟨v, hv⟩
    have h1 : v ≤ mx := hmxbound v (List.mem_map.mpr ⟨c, hc, hv⟩)
    exact le_trans ((colMax_spec hv).2 x hx) h1
  have hle : mn ≤ mx := by
    rcases hmnwit with ⟨c, hc, hmem⟩
    exact hmxhigh c hc mn hmem
  refine ⟨mn, mx, ?_, hmnwit, hmnlow, hmxwit, hmxhigh,
    hourRange_head? mn mx hle, hourRange_pairwise_lt mn mx,
    fun i hi => hourRange_get mn mx hle i hi,
    fun t => mem_hourRange,
    fun hal => hourRange_getLast? mn mx hle hal⟩
  simp [build_hourly_index, hmn, hmx]

/-- Witness for C4 (amended) at a single frame holding hours 0 and 1. -/
theorem c4_amended_build_hourly_index_witness :
    ∃ mn mx,
      build_hourly_index [[some 0, some 3600]] = some (hourRange mn mx)
      ∧ (∃ c ∈ [[some (0 : Int), some 3600]], some mn ∈ c)
      ∧ (∀ c ∈ [[some (0 : Int), some 3600]], ∀ x : Int, some x ∈ c → mn ≤ x)
      ∧ (∃ c ∈ [[some (0 : Int), some 3600]], some mx ∈ c)
      ∧ (∀ c ∈ [[some (0 : Int), some 3600]], ∀ x : Int, some x ∈ c → x ≤ mx)
      ∧ (hourRange mn mx).head? = some mn
      ∧ (hourRange mn mx).Pairwise (· < ·)
      ∧ (∀ i : Nat, ∀ hi : i < (hourRange mn mx).length,
          (hourRange mn mx).get ⟨i, hi⟩ = mn + 3600 * i)
      ∧ (∀ t : Int, t ∈ hourRange mn mx ↔ mn ≤ t ∧ t ≤ mx ∧ (t - mn) % 3600 = 0)
      ∧ ((mx - mn) % 3600 = 0 → (hourRange mn mx).getLast? = some mx) :=
  c4_amended_build_hourly_index [[some 0, some 3600]] (by decide) (by decide) (by decide)

/-- C4 counterexample: one frame with valid timestamps 0s and 5400s (an hour
and a half apart).  The grid is [0, 3600]: its last element is 3600, not the
maximum timestamp 5400, refuting the claim that the last grid element always
equals the maximum over all frames. -/
theorem c4_counterexample_span_not_hour_multiple :
    build_hourly_index [[some 0, some 5400]] = some [0, 3600]
    ∧ colMax [some 0, some 5400] = some 5400
    ∧ ([0, 3600] : List Int).getLast? = some 3600
    ∧ (3600 : Int) ≠ 5400 :=
  ⟨by decide, by decide, by decide, by decide⟩

/- ===================================================================
   C5: an empty source frame in the merge.
   =================================================================== -/

/-- C5 (code evaluation): with the AQS frame empty and every other source
non-empty, `build_hourly_index` scans the empty column first, its minimum is
NaT, the Python `min` keeps NaT, and `pd.date_range` raises — the merge run
fails (`none`) instead of treating the empty frame as a no-op contributor.
An empty frame in any later slot really is a no-op: the same sources with an
empty AirNow frame merge successfully. -/
theorem c5_empty_aqs_frame_breaks_merge :
    merge_all [] [pAn1] [pPa1] [pOm1] [pHvo1] = none
    ∧ (merge_all [pAqs1] [] [pPa1] [pOm1] [pHvo1]).isSome = true :=
  ⟨by rfl, by rfl⟩

/- ===================================================================
   Merge-engine lemmas: blocks, joins, and the dedup-sort tail.
   =================================================================== -/

theorem joinBlock_ne_nil {σ : Type} (src : List σ) (sdt : σ → Option Int)
    (set : MergedRow → σ → MergedRow) (b : MergedRow) : joinBlock src sdt set b ≠ [] := by
  unfold joinBlock
  by_cases h : (src.filter (fun s => decide (sdt s = some b.datetime_utc))).isEmpty
  · rw [if_pos h]
    simp
  · rw [if_neg h]
    intro hc
    have h2 : (src.filter (fun s => decide (sdt s = some b.datetime_utc))) = [] := by
      simpa using hc
    rw [h2] at h
    simp at h

theorem joinBlock_dt {σ : Type} (src : List σ) (sdt : σ → Option Int)
    (set : MergedRow → σ → MergedRow)
    (hset : ∀ b s, (set b s).datetime_utc = b.datetime_utc) (b : MergedRow) :
    ∀ x ∈ joinBlock src sdt set b, x.datetime_utc = b.datetime_utc := by
  intro x hx
  unfold joinBlock at hx
  by_cases h : (src.filter (fun s => decide (sdt s = some b.datetime_utc))).isEmpty
  · rw [if_pos h] at hx
    rcases List.mem_singleton.mp hx with rfl
    rfl
  · rw [if_neg h] at hx
    rcases List.mem_map.mp hx with ⟨s, _, rfl⟩
    exact hset b s

theorem joinBlock_head? {σ : Type} (src : List σ) (sdt : σ → Option Int)
    (set : MergedRow → σ → MergedRow) (b : MergedRow) :
    (joinBlock src sdt set b).head? = some (applyFirst src sdt set b) := by
  unfold joinBlock applyFirst
  cases hf : src.find? (fun s => decide (sdt s = some b.datetime_utc)) with
  | none =>
    have hfil : (src.filter (fun s => decide (sdt s = some b.datetime_utc))).head? = none := by
      rw [head?_filter_eq_find?, hf]
    have hempty : (src.filter (fun s => decide (sdt s = some b.datetime_utc))) = [] :=
      List.head?_eq_none_iff.mp hfil
    rw [if_pos (by rw [hempty]; rfl)]
    rfl
  | some s =>
    have hfil : (src.filter (fun s => decide (sdt s = some b.datetime_utc))).head? = some s := by
      rw [head?_filter_eq_find?, hf]
    have hne : (src.filter (fun s => decide (sdt s = some b.datetime_utc))).isEmpty = false := by
      cases hfl : src.filter (fun s => decide (sdt s = some b.datetime_utc)) with
      | nil =>
        rw [hfl] at hfil
        simp at hfil
      | cons a l => rfl
    rw [if_neg (by rw [hne]; exact Bool.false_ne_true)]
    rw [List.head?_map, hfil]
    rfl

theorem leftJoinStep_dt_mem {σ : Type} (rows : List MergedRow) (src : List σ)
    (sdt : σ → Option Int) (set : MergedRow → σ → MergedRow)
    (hset : ∀ b s, (set b s).datetime_utc = b.datetime_utc) :
    ∀ r ∈ leftJoinStep rows src sdt set, ∃ b ∈ rows, r.datetime_utc = b.datetime_utc := by
  intro r hr
  unfold leftJoinStep at hr
  by_cases hsrc : src.isEmpty
  · rw [if_pos hsrc] at hr
    exact ⟨r, hr, rfl⟩
  · rw [if_neg hsrc] at hr
    rcases List.mem_flatMap.mp hr with ⟨b, hb, hrb⟩
    exact ⟨b, hb, joinBlock_dt src sdt set hset b r hrb⟩

theorem leftJoinStep_find? {σ : Type} (rows : List MergedRow) (src : List σ)
    (sdt : σ → Option Int) (set : MergedRow → σ → MergedRow)
    (hset : ∀ b s, (set b s).datetime_utc = b.datetime_utc) (t : Int) (b : MergedRow)
    (hb : rows.find? (fun r => decide (r.datetime_utc = t)) = some b) :
    (leftJoinStep rows src sdt set).find? (fun r => decide (r.datetime_utc = t))
      = some (applyFirst src sdt set b) := by
  unfold leftJoinStep
  by_cases hsrc : src.isEmpty
  · rw [if_pos hsrc, hb]
    have hsrc2 : src = [] := List.isEmpty_iff.mp hsrc
    subst hsrc2
    rfl
  · rw [if_neg hsrc]
    rw [find?_flatMap_blocks (fun r => decide (r.datetime_utc = t))
      (fun r => decide (r.datetime_utc = t)) (joinBlock src sdt set) rows
      (fun b2 => joinBlock_ne_nil src sdt set b2)
      (fun b2 x hx => by
        show decide (x.datetime_utc = t) = decide (b2.datetime_utc = t)
        rw [joinBlock_dt src sdt set hset b2 x hx])]
    rw [hb]
    exact joinBlock_head? src sdt set b

theorem base_find? (g : List Int) (t : Int) (ht : t ∈ g) :
    (g.map MergedRow.base).find? (fun r => decide (r.datetime_utc = t))
      = some (MergedRow.base t) := by
  rw [List.find?_map]
  have hcomp : ((fun r : MergedRow => decide (r.datetime_utc = t)) ∘ MergedRow.base)
      = fun k : Int => decide (k = t) := rfl
  rw [hcomp]
  have hfind : g.find? (fun k : Int => decide (k = t)) = some t := by
    induction g with
    | nil => simp at ht
    | cons a g ih =>
      by_cases h : a = t
      · rw [List.find?_cons_of_pos _ (by simp [h]), h]
      · rw [List.find?_cons_of_neg _ (by simp [h])]
        refine ih ?_
        rcases List.mem_cons.mp ht with h2 | h2
        · exact absurd h2.symm h
        · exact h2
  rw [hfind]
  rfl

theorem sort_dedup_spec (g : List Int) (R : Int → MergedRow) (j out : List MergedRow)
    (hout : out = sortByTs (fun r : MergedRow => some r.datetime_utc)
      (dedupBy MergedRow.datetime_utc j))
    (hmem : ∀ r ∈ j, r.datetime_utc ∈ g)
    (hfind : ∀ t ∈ g, j.find? (fun r => decide (r.datetime_utc = t)) = some (R t)) :
    (out.map MergedRow.datetime_utc).Nodup
    ∧ List.Sorted (byTs (fun r : MergedRow => some r.datetime_utc)) out
    ∧ (∀ r ∈ out, r.datetime_utc ∈ g)
    ∧ ∀ t ∈ g, R t ∈ out ∧ (R t).datetime_utc = t
        ∧ (∀ r ∈ out, r.datetime_utc = t → r = R t)
        ∧ out.find? (fun r => decide (r.datetime_utc = t)) = some (R t) := by
  subst hout
  have hperm := sortByTs_perm (fun r : MergedRow => some r.datetime_utc)
    (dedupBy MergedRow.datetime_utc j)
  have hnd : ((dedupBy MergedRow.datetime_utc j).map MergedRow.datetime_utc).Nodup :=
    nodup_keys_dedupBy _ _
  refine ⟨nodup_keys_of_perm _ hperm hnd, sortByTs_sorted _ _, ?_, ?_⟩
  · intro r hr
    exact hmem r (mem_of_mem_dedupByAux _ (hperm.mem_iff.mp hr))
  · intro t ht
    have hf2 : (dedupBy MergedRow.datetime_utc j).find?
        (fun r => decide (r.datetime_utc = t)) = some (R t) := by
      rw [find?_dedupBy_key MergedRow.datetime_utc j t]
      exact hfind t ht
    have hRmem : R t ∈ dedupBy MergedRow.datetime_utc j := List.mem_of_find?_eq_some hf2
    have hRdt : (R t).datetime_utc = t := by
      have h := List.find?_some hf2
      simpa using h
    have huniq : ∀ y ∈ dedupBy MergedRow.datetime_utc j, y.datetime_utc = t → y = R t := by
      intro y hy hyt
      exact List.inj_on_of_nodup_map hnd hy hRmem (by rw [hyt, hRdt])
    have hmemout : R t ∈ sortByTs (fun r : MergedRow => some r.datetime_utc)
        (dedupBy MergedRow.datetime_utc j) := hperm.mem_iff.mpr hRmem
    refine ⟨hmemout, hRdt, ?_, ?_⟩
    · intro r hr hrt
      exact huniq r (hperm.mem_iff.mp hr) hrt
    · refine find?_eq_some_of_mem_unique _ hmemout (by simp [hRdt]) ?_
      intro y hy hpy
      exact huniq y (hperm.mem_iff.mp hy) (of_decide_eq_true hpy)

theorem merge_all_core (aqs : List PAqsRow) (airnow : List PAirnowRow)
    (pa : List PPurpleairRow) (om : List POmRow) (hvo : List PHvoRow)
    (g : List Int) (m : List MergedRow)
    (hbuild : build_hourly_index (dtCols aqs airnow pa om hvo) = some g)
    (hm : merge_all aqs airnow pa om hvo = some m) :
    (m.map MergedRow.datetime_utc).Nodup
    ∧ List.Sorted (byTs (fun r : MergedRow => some r.datetime_utc)) m
    ∧ (∀ r ∈ m, r.datetime_utc ∈ g)
    ∧ ∀ t ∈ g, mergedRowAt aqs airnow pa om hvo t ∈ m
        ∧ (mergedRowAt aqs airnow pa om hvo t).datetime_utc = t
        ∧ (∀ r ∈ m, r.datetime_utc = t → r = mergedRowAt aqs airnow pa om hvo t)
        ∧ m.find? (fun r => decide (r.datetime_utc = t))
            = some (mergedRowAt aqs airnow pa om hvo t) := by
  simp only [merge_all, hbuild, Option.some.injEq] at hm
  refine sort_dedup_spec g (mergedRowAt aqs airnow pa om hvo) _ m hm.symm ?_ ?_
  · intro r hr
    rcases leftJoinStep_dt_mem _ hvo PHvoRow.dt setHvo (fun b s => rfl) r hr with ⟨b4, hb4, he4⟩
    rcases leftJoinStep_dt_mem _ om POmRow.dt setOm (fun b s => rfl) b4 hb4 with ⟨b3, hb3, he3⟩
    rcases leftJoinStep_dt_mem _ pa PPurpleairRow.dt setPurpleair (fun b s => rfl) b3 hb3
      with ⟨b2, hb2, he2⟩
    rcases leftJoinStep_dt_mem _ airnow PAirnowRow.dt setAirnow (fun b s => rfl) b2 hb2
      with ⟨b1, hb1, he1⟩
    rcases leftJoinStep_dt_mem _ aqs PAqsRow.dt setAqs (fun b s => rfl) b1 hb1
      with ⟨b0, hb0, he0⟩
    rcases List.mem_map.mp hb0 with ⟨k, hk, rfl⟩
    rw [he4, he3, he2, he1, he0]
    exact hk
  · intro t ht
    have hf0 := base_find? g t ht
    have hf1 := leftJoinStep_find? _ aqs PAqsRow.dt setAqs (fun b s => rfl) t _ hf0
    have hf2 := leftJoinStep_find? _ airnow PAirnowRow.dt setAirnow (fun b s => rfl) t _ hf1
    have hf3 := leftJoinStep_find? _ pa PPurpleairRow.dt setPurpleair (fun b s => rfl) t _ hf2
    have hf4 := leftJoinStep_find? _ om POmRow.dt setOm (fun b s => rfl) t _ hf3
    have hf5 := leftJoinStep_find? _ hvo PHvoRow.dt setHvo (fun b s => rfl) t _ hf4
    exact hf5

/- ===================================================================
   C3: one row per grid timestamp, row count equals grid length.
   =================================================================== -/

/-- C3: whenever the grid builds and the merge runs, the merged table's
timestamp column is exactly the canonical grid — one row per grid timestamp,
in order — so its row count equals the grid length, for any combination of
non-empty prepared source frames, including frames contributing several rows
at the same timestamp (the left-join fan-out is collapsed again by the final
drop-duplicates on the timestamp). -/
theorem c3_merge_row_count :
    ∀ (aqs : List PAqsRow) (airnow : List PAirnowRow) (pa : List PPurpleairRow)
      (om : List POmRow) (hvo : List PHvoRow) (g : List Int) (m : List MergedRow),
    aqs ≠ [] → airnow ≠ [] → pa ≠ [] → om ≠ [] → hvo ≠ [] →
    build_hourly_index (dtCols aqs airnow pa om hvo) = some g →
    merge_all aqs airnow pa om hvo = some m →
    m.map MergedRow.datetime_utc = g ∧ m.length = g.length := by
  intro aqs airnow pa om hvo g m _ _ _ _ _ hbuild hm
  obtain ⟨hnd, hsorted, hsub, hat⟩ := merge_all_core aqs airnow pa om hvo g m hbuild hm
  have hg : ∃ s e, g = hourRange s e := by
    unfold build_hourly_index at hbuild
    cases hpm : pyMin ((dtCols aqs airnow pa om hvo).map colMin) with
    | none =>
      rw [hpm] at hbuild
      simp at hbuild
    | some s =>
      cases hpx : pyMax ((dtCols aqs airnow pa om hvo).map colMax) with
      | none =>
        rw [hpm, hpx] at hbuild
        simp at hbuild
      | some e =>
        rw [hpm, hpx] at hbuild
        simp at hbuild
        exact ⟨s, e, hbuild.symm⟩
  rcases hg with ⟨s, e, rfl⟩
  have hgpw := hourRange_pairwise_lt s e
  have hgnd : (hourRange s e).Nodup := hgpw.imp (fun h => ne_of_lt h)
  have hperm : List.Perm (m.map MergedRow.datetime_utc) (hourRange s e) := by
    refine (List.perm_ext_iff_of_nodup hnd hgnd).mpr ?_
    intro a
    constructor
    · intro ha
      rcases List.mem_map.mp ha with ⟨r, hr, rfl⟩
      exact hsub r hr
    · intro ha
      exact List.mem_map.mpr
        ⟨mergedRowAt aqs airnow pa om hvo a, (hat a ha).1, (hat a ha).2.1⟩
  have hmsort : List.Sorted (· ≤ ·) (m.map MergedRow.datetime_utc) := by
    refine List.pairwise_map.mpr ?_
    refine hsorted.imp ?_
    intro a b hab
    have hab2 : tsLeB (some a.datetime_utc) (some b.datetime_utc) = true := hab
    simpa [tsLeB] using hab2
  have hgsort : List.Sorted (· ≤ ·) (hourRange s e) := hgpw.imp (fun h => le_of_lt h)
  have heq := List.eq_of_perm_of_sorted hperm hmsort hgsort
  refine ⟨heq, ?_⟩
  rw [← heq]
  simp

/-- Witness for C3 at one-row frames covering hours 0 and 1: the merged table
has exactly the two grid timestamps. -/
theorem c3_merge_row_count_witness :
    ([⟨0, Cell.num 5, Cell.na, Cell.num 12, Cell.num 40, Cell.num 30, Cell.num 1013,
        Cell.num 25, Cell.num 80, Cell.num 0, Cell.num 0, Cell.num 5, Cell.num 90,
        Cell.num 7, Cell.na, Cell.na, Cell.na, Cell.na⟩,
      ⟨3600, Cell.na, Cell.num 40, Cell.na, Cell.na, Cell.na, Cell.na, Cell.na, Cell.na,
        Cell.na, Cell.na, Cell.na, Cell.na, Cell.na, Cell.str "WATCH", Cell.str "ORANGE",
        Cell.boolv true, Cell.boolv false⟩] : List MergedRow).map MergedRow.datetime_utc
      = [0, 3600]
    ∧ ([⟨0, Cell.num 5, Cell.na, Cell.num 12, Cell.num 40, Cell.num 30, Cell.num 1013,
        Cell.num 25, Cell.num 80, Cell.num 0, Cell.num 0, Cell.num 5, Cell.num 90,
        Cell.num 7, Cell.na, Cell.na, Cell.na, Cell.na⟩,
      ⟨3600, Cell.na, Cell.num 40, Cell.na, Cell.na, Cell.na, Cell.na, Cell.na, Cell.na,
        Cell.na, Cell.na, Cell.na, Cell.na, Cell.na, Cell.str "WATCH", Cell.str "ORANGE",
        Cell.boolv true, Cell.boolv false⟩] : List MergedRow).length
      = ([0, 3600] : List Int).length :=
  c3_merge_row_count [pAqs1] [pAn1] [pPa1] [pOm1] [pHvo1] [0, 3600] _
    (by decide) (by decide) (by decide) (by decide) (by decide) (by rfl) (by rfl)

/- ===================================================================
   C10: first-match semantics, no aggregation of duplicate source rows.
   =================================================================== -/

/-- C10: at every grid timestamp the merged table carries exactly one row —
the base row updated with the first matching row of each source in join
order — so when a source holds several rows at the same timestamp, only its
first row's value columns are reported and the rest are silently discarded,
with no aggregation; in particular the merged `pm25_aqs` value is the
`pm25_aqs` of the first AQS row at that timestamp (missing when there is
none). -/
theorem c10_merge_first_match_no_aggregation :
    ∀ (aqs : List PAqsRow) (airnow : List PAirnowRow) (pa : List PPurpleairRow)
      (om : List POmRow) (hvo : List PHvoRow) (g : List Int) (m : List MergedRow) (t : Int),
    build_hourly_index (dtCols aqs airnow pa om hvo) = some g →
    merge_all aqs airnow pa om hvo = some m →
    t ∈ g →
    m.find? (fun r => decide (r.datetime_utc = t)) = some (mergedRowAt aqs airnow pa om hvo t)
    ∧ (∀ r ∈ m, r.datetime_utc = t → r = mergedRowAt aqs airnow pa om hvo t)
    ∧ (mergedRowAt aqs airnow pa om hvo t).pm25_aqs
        = ((aqs.find? (fun s => decide (PAqsRow.dt s = some t))).map
            PAqsRow.pm25_aqs).getD Cell.na := by
  intro aqs airnow pa om hvo g m t hbuild hm ht
  obtain ⟨_, _, _, hat⟩ := merge_all_core aqs airnow pa om hvo g m hbuild hm
  obtain ⟨_, _, huniq, hfind⟩ := hat t ht
  refine ⟨hfind, huniq, ?_⟩
  have h1 : ∀ (b : MergedRow) (src : List PAqsRow),
      (applyFirst src PAqsRow.dt setAqs b).pm25_aqs
        = ((src.find? (fun s => decide (PAqsRow.dt s = some b.datetime_utc))).map
            PAqsRow.pm25_aqs).getD b.pm25_aqs := by
    intro b src
    unfold applyFirst
    cases src.find? (fun s => decide (PAqsRow.dt s = some b.datetime_utc)) with
    | none => rfl
    | some s => rfl
  have h2 : ∀ (b : MergedRow) (src : List PAirnowRow),
      (applyFirst src PAirnowRow.dt setAirnow b).pm25_aqs = b.pm25_aqs := by
    intro b src
    unfold applyFirst
    cases src.find? (fun s => decide (PAirnowRow.dt s = some b.datetime_utc)) with
    | none => rfl
    | some s => rfl
  have h3 : ∀ (b : MergedRow) (src : List PPurpleairRow),
      (applyFirst src PPurpleairRow.dt setPurpleair b).pm25_aqs = b.pm25_aqs := by
    intro b src
    unfold applyFirst
    cases src.find? (fun s => decide (PPurpleairRow.dt s = some b.datetime_utc)) with
    | none => rfl
    | some s => rfl
  have h4 : ∀ (b : MergedRow) (src : List POmRow),
      (applyFirst src POmRow.dt setOm b).pm25_aqs = b.pm25_aqs := by
    intro b src
    unfold applyFirst
    cases src.find? (fun s => decide (POmRow.dt s = some b.datetime_utc)) with
    | none => rfl
    | some s => rfl
  have h5 : ∀ (b : MergedRow) (src : List PHvoRow),
      (applyFirst src PHvoRow.dt setHvo b).pm25_aqs = b.pm25_aqs := by
    intro b src
    unfold applyFirst
    cases src.find? (fun s => decide (PHvoRow.dt s = some b.datetime_utc)) with
    | none => rfl
    | some s => rfl
  unfold mergedRowAt
  rw [h5, h4, h3, h2, h1]
  rfl

/-- Witness for C10: with two AQS rows at hour 0 (values 5 and 6), the merged
row at hour 0 reports 5 — the first row's value — and 6 is discarded. -/
theorem c10_merge_first_match_no_aggregation_witness :
    (mergedRowAt [pAqs1, pAqs2] [pAn1] [pPa1] [pOm1] [pHvo1] 0).pm25_aqs = Cell.num 5
    ∧ pAqs2.pm25_aqs = Cell.num 6
    ∧ ([⟨0, Cell.num 5, Cell.na, Cell.num 12, Cell.num 40, Cell.num 30, Cell.num 1013,
        Cell.num 25, Cell.num 80, Cell.num 0, Cell.num 0, Cell.num 5, Cell.num 90,
        Cell.num 7, Cell.na, Cell.na, Cell.na, Cell.na⟩,
      ⟨3600, Cell.na, Cell.num 40, Cell.na, Cell.na, Cell.na, Cell.na, Cell.na, Cell.na,
        Cell.na, Cell.na, Cell.na, Cell.na, Cell.na, Cell.str "WATCH", Cell.str "ORANGE",
        Cell.boolv true, Cell.boolv false⟩] : List MergedRow).find?
          (fun r => decide (r.datetime_utc = 0))
      = some (mergedRowAt [pAqs1, pAqs2] [pAn1] [pPa1] [pOm1] [pHvo1] 0) :=
  ⟨by decide, by decide,
   (c10_merge_first_match_no_aggregation [pAqs1, pAqs2] [pAn1] [pPa1] [pOm1] [pHvo1]
     [0, 3600] _ 0 (by rfl) (by rfl) (by decide)).1⟩
